import Mathlib

/-!
Verification development for the GastoSmart recommendation engine
(`GastoSmart-Backend/database/recommendation_operation.py`, the canonical
"long" iteration, plus the superseded temp-branch iteration where a claim
refers to it, and the `apply_recommendation` state-mutation flow).

Modelling conventions:
* Python numbers are modelled by exact rationals (`ℚ`).  All the amounts,
  thresholds and scores appearing in the claims are values on which Python
  float arithmetic is exact or rounds identically, so the rational model is
  faithful for every statement proved below.
* Loosely-typed Python values that flow into `amount`, `meta_ahorro`,
  `limite_gastos` and `metadata.amount` are modelled by `PyVal`
  (None / number / string); Python truthiness and the raising builtin
  `float(...)` are modelled explicitly.
* Python dicts keep insertion order; `by_category` and `merchant_map` are
  therefore modelled by insertion-ordered association lists.
* `sorted(..., key=..., reverse=True)` is a stable descending sort; it is
  modelled by the stable insertion sort `sortD` below.
* Async I/O (`fetch_user_data`, Mongo reads/writes) is externalised: the
  generator takes the fetched transaction list and settings as arguments,
  and `apply_recommendation` is a function on an explicit store state.
-/

attribute [local semireducible] Rat.mul Rat.add Rat.sub Rat.inv Rat.ofScientific

namespace GastoSmart

/-- Strip leading and trailing whitespace from a character list
(Python `str.strip()` with its default whitespace set). -/
def trimL (cs : List Char) : List Char :=
  ((cs.dropWhile Char.isWhitespace).reverse.dropWhile Char.isWhitespace).reverse

/-- Python `str.strip()` on a string. -/
def pyStrip (s : String) : String := String.mk (trimL s.data)

/-- Python `str.lower()` (ASCII case folding; the non-ASCII characters
appearing in this codebase are already lowercase). -/
def toLowerS (s : String) : String := String.mk (s.data.map Char.toLower)

/-- Python `str.replace(",", "")`: remove every comma. -/
def removeCommas (s : String) : String := String.mk (s.data.filter (fun c => c ≠ ','))

/-- Model of a loosely typed Python value reaching a numeric slot:
`None`, a number (int/float collapsed, exact rational), or a string. -/
inductive PyVal : Type where
  | none : PyVal
  | num : ℚ → PyVal
  | str : String → PyVal
deriving DecidableEq, Repr

/-- Python truthiness of a `PyVal` (`bool(v)`): `None`, `0` and `""` are falsy. -/
def truthy : PyVal → Bool
  | PyVal.none => false
  | PyVal.num q => q != 0
  | PyVal.str s => s != ""

/-- Python truthiness of an optional string (`None` and `""` are falsy). -/
def truthyS (o : Option String) : Bool := o.getD "" != ""

/-- Fold decimal digit characters into a natural number. -/
def digitsToNat (cs : List Char) : ℕ :=
  cs.foldl (fun a c => a * 10 + (c.toNat - 48)) 0

/-- Model of the Python builtin `float` applied to a string: optional
whitespace, optional sign, integer digits and an optional fractional part.
Returns `none` when Python would raise `ValueError`.  (Exotic accepted
forms such as exponents, `inf`/`nan` or underscores are not needed by any
claim and are mapped to `none`.) -/
def pyFloatStr (s : String) : Option ℚ :=
  let cs := trimL s.data
  let signed : Bool × List Char :=
    match cs with
    | '-' :: r => (true, r)
    | '+' :: r => (false, r)
    | r => (false, r)
  let ip := signed.2.takeWhile Char.isDigit
  let rest := signed.2.dropWhile Char.isDigit
  let mkQ : ℚ → Option ℚ := fun q => some (if signed.1 then -q else q)
  match rest with
  | [] => if ip.isEmpty then none else mkQ (digitsToNat ip)
  | '.' :: fr =>
    let fp := fr.takeWhile Char.isDigit
    let rest2 := fr.dropWhile Char.isDigit
    if rest2.isEmpty then
      if ip.isEmpty && fp.isEmpty then none
      else mkQ ((digitsToNat ip : ℚ) + (digitsToNat fp : ℚ) / (10 : ℚ) ^ fp.length)
    else none
  | _ => none

/-- Model of the raising Python builtin `float(v)`: `Except.error` where
Python raises (`TypeError` on `None`, `ValueError` on bad strings). -/
def pyFloatE : PyVal → Except String ℚ
  | PyVal.none => Except.error "TypeError"
  | PyVal.num q => Except.ok q
  | PyVal.str s =>
    match pyFloatStr s with
    | some q => Except.ok q
    | Option.none => Except.error "ValueError"

/-- Non-raising view of `float(v)`. -/
def pyFloat (v : PyVal) : Option ℚ := (pyFloatE v).toOption

/-- Model of Python `str(v)` for the values a transaction amount can hold.
Numbers render exactly (integers as in Python; non-integers by an injective
`num/den` rendering standing in for the float repr, which no claim inspects). -/
def pyStrOf : PyVal → String
  | PyVal.none => "None"
  | PyVal.num q => if q.den = 1 then toString q.num else toString q.num ++ "/" ++ toString q.den
  | PyVal.str s => s

/-- Model of a `try/except` block with a catch-all handler. -/
def tryc {α : Type} (x : Except String α) (h : String → Except String α) : Except String α :=
  match x with
  | Except.ok a => Except.ok a
  | Except.error e => h e

/-- Canonical normalized transaction dict, as produced by
`_normalize_transaction` and consumed by the aggregation loop.
`Option.none` / `PyVal.none` stand for an absent key or a `None` value
(the code treats both alike through `.get(...)` with defaults). -/
structure Tx : Type where
  user_id : Option String
  type : Option String
  amount : PyVal
  category : Option String
  description : Option String
  merchant : Option String
  date : PyVal
deriving DecidableEq, Repr

/-- The empty dict `{}` returned by `_normalize_transaction` on failure. -/
def emptyTx : Tx := ⟨none, none, PyVal.none, none, none, none, PyVal.none⟩

/-- The `_is_income` helper: case-insensitive membership of the `type`
field (defaulted to `""`) in the income label set. -/
def isIncomeB (t : Tx) : Bool :=
  ["ingreso", "income", "in", "deposit"].contains (toLowerS (t.type.getD ""))

/-- The `_is_expense` helper: case-insensitive membership of the `type`
field (defaulted to `""`) in the expense label set. -/
def isExpenseB (t : Tx) : Bool :=
  ["gasto", "expense", "out", "withdrawal"].contains (toLowerS (t.type.getD ""))

/-- The `_parse_amount` helper with Python's exception flow made explicit:
`amt = t.get("amount", 0) or 0`; `try: return float(amt)`;
`except: try: return float(str(amt).replace(",", "").strip())`;
`except: return 0.0`. -/
def parseAmountE (t : Tx) : Except String ℚ :=
  let amt := if truthy t.amount then t.amount else PyVal.num 0
  tryc (pyFloatE amt) (fun _ =>
    tryc (pyFloatE (PyVal.str (pyStrip (removeCommas (pyStrOf amt))))) (fun _ =>
      Except.ok 0))

/-- Pure view of `_parse_amount`: the value it returns (it never raises;
see `parseAmountE_eq_ok`). -/
def parseAmount (t : Tx) : ℚ :=
  let amt := if truthy t.amount then t.amount else PyVal.num 0
  match pyFloat amt with
  | some q => q
  | Option.none =>
    match pyFloatStr (pyStrip (removeCommas (pyStrOf amt))) with
    | some q => q
    | Option.none => 0

/-- Python's `round` on an exact value: round half to even (banker's
rounding), as used by `int(round(ingresos * 0.10))`. -/
def rhe (q : ℚ) : ℤ :=
  let f := q.floor
  let r := q - (f : ℚ)
  if r < 1 / 2 then f
  else if 1 / 2 < r then f + 1
  else if f % 2 = 0 then f else f + 1

/-- Left-pad a string with zeros to the given width. -/
def padZeros (s : String) (w : ℕ) : String :=
  String.mk (List.replicate (w - s.length) '0') ++ s

/-- Model of Python fixed-point formatting `f"{q:.precf}"`: scale, round
half to even, and render with `prec` decimals. -/
def fmtF (prec : ℕ) (q : ℚ) : String :=
  let n : ℤ := rhe (q * (10 : ℚ) ^ prec)
  let sign := if n < 0 then "-" else ""
  let na := n.natAbs
  let ip := na / 10 ^ prec
  let fp := na % 10 ^ prec
  if prec = 0 then sign ++ toString ip
  else sign ++ toString ip ++ "." ++ padZeros (toString fp) prec

/-- Insert thousands separators into a reversed digit list. -/
def commaFold : List Char → List Char
  | a :: b :: c :: d :: rest => a :: b :: c :: ',' :: commaFold (d :: rest)
  | l => l

/-- Model of Python `f"{n:,}"` for an integer. -/
def fmtComma (n : ℤ) : String :=
  (if n < 0 then "-" else "") ++
    String.mk (commaFold (toString n.natAbs).toList.reverse).reverse

/-- User settings record as returned by `fetch_user_data` (the two keys the
generator reads; `PyVal.none` models an absent or null preference). -/
structure Settings : Type where
  meta_ahorro : PyVal
  limite_gastos : PyVal
deriving DecidableEq, Repr

/-- Update an insertion-ordered association list the way
`by_category[cat] = by_category.get(cat, 0.0) + amt` does: bump in place,
or append a new key at the end. -/
def addToAssoc : List (String × ℚ) → String → ℚ → List (String × ℚ)
  | [], k, a => [(k, a)]
  | (k', v) :: rest, k, a =>
    if k' = k then (k', v + a) :: rest else (k', v) :: addToAssoc rest k a

/-- Update an insertion-ordered multimap the way
`merchant_map.setdefault(m, []).append(amt)` does. -/
def addToMulti : List (String × List ℚ) → String → ℚ → List (String × List ℚ)
  | [], k, a => [(k, [a])]
  | (k', vs) :: rest, k, a =>
    if k' = k then (k', vs ++ [a]) :: rest else (k', vs) :: addToMulti rest k a

/-- First-match association lookup (Python dict access). -/
def lookupA {β : Type} : List (String × β) → String → Option β
  | [], _ => none
  | (k, v) :: rest, m => if k = m then some v else lookupA rest m

/-- The merchant grouping key:
`(t.get("merchant") or t.get("description") or "").strip().lower()`. -/
def merchKey (t : Tx) : String :=
  toLowerS (pyStrip
    (if truthyS t.merchant then t.merchant.getD ""
     else if truthyS t.description then t.description.getD ""
     else ""))

/-- The category key: `t.get("category") or "Sin categoría"`. -/
def catKey (t : Tx) : String :=
  if truthyS t.category then t.category.getD "" else "Sin categoría"

/-- Aggregated signals accumulated by the normalization loop of
`generate_recommendations`. -/
structure Agg : Type where
  ingresos : ℚ
  gastos : ℚ
  by_category : List (String × ℚ)
  merchant_map : List (String × List ℚ)
  small_count : ℕ
  small_total : ℚ
deriving DecidableEq, Repr

/-- One iteration of the aggregation loop over the transaction list. -/
def aggStep (a : Agg) (t : Tx) : Agg :=
  let amt := parseAmount t
  if isIncomeB t then { a with ingresos := a.ingresos + amt }
  else if isExpenseB t then
    { a with
      gastos := a.gastos + amt
      by_category := addToAssoc a.by_category (catKey t) amt
      merchant_map :=
        if merchKey t ≠ "" then addToMulti a.merchant_map (merchKey t) amt
        else a.merchant_map
      small_count := if amt ≤ 20000 then a.small_count + 1 else a.small_count
      small_total := if amt ≤ 20000 then a.small_total + amt else a.small_total }
  else a

/-- The initial (all-zero, all-empty) aggregate. -/
def aggInit : Agg := ⟨0, 0, [], [], 0, 0⟩

/-- The full aggregation pass of `generate_recommendations`. -/
def aggregate (txs : List Tx) : Agg := txs.foldl aggStep aggInit

/-- The amounts the aggregation loop records for merchant key `m`, in
transaction order (expense transactions whose merchant key is `m`). -/
def merchantAmounts (txs : List Tx) (m : String) : List ℚ :=
  (txs.filter (fun t => !isIncomeB t && isExpenseB t && (merchKey t == m))).map parseAmount

/-- A recommendation candidate dict (the fixed shape the validator emits:
`type`, `title`, `detail`, `score`, `suggested_action`). -/
structure Rec : Type where
  type : String
  title : String
  detail : String
  score : Option ℚ
  suggested_action : Option String
deriving DecidableEq, Repr

/-- The ranking key `r.get("score", 0)` (null score treated as 0). -/
def recKey (r : Rec) : ℚ := r.score.getD 0

/-- The deduplication identity `(r.get("type"), r.get("title"))`. -/
def keyTT (r : Rec) : String × String := (r.type, r.title)

/-- Stable descending insertion: place `r` before the first element whose
key is at most `k r`.  This is where `sorted(..., reverse=True)` puts an
element relative to earlier-emitted ones (ties keep the earlier element
first). -/
def insertD {α : Type} (k : α → ℚ) (r : α) : List α → List α
  | [] => [r]
  | x :: xs => if k x ≤ k r then r :: x :: xs else x :: insertD k r xs

/-- Stable sort by non-increasing key, modelling Python's stable
`sorted(l, key=k, reverse=True)`. -/
def sortD {α : Type} (k : α → ℚ) : List α → List α
  | [] => []
  | r :: rs => insertD k r (sortD k rs)

/-- The validator's re-projection of a candidate dict onto the five fixed
keys (every emitted candidate already carries all of them). -/
def projectRec (r : Rec) : Rec :=
  ⟨r.type, r.title, r.detail, r.score, r.suggested_action⟩

/-- The deduplication loop of `generate_recommendations`: walk the sorted
list, skip a candidate whose `(type, title)` was already seen, otherwise
record the key and keep the projected candidate. -/
def dedupTT : List Rec → List (String × String) → List Rec
  | [], _ => []
  | r :: rs, seen =>
    if keyTT r ∈ seen then dedupTT rs seen
    else projectRec r :: dedupTT rs (keyTT r :: seen)

/-- Generic first-occurrence deduplication by a key function (the shape of
`dedupTT` once the identity projection is simplified away). -/
def dedupKey {α β : Type} [DecidableEq β] (kt : α → β) : List α → List β → List α
  | [], _ => []
  | r :: rs, seen =>
    if kt r ∈ seen then dedupKey kt rs seen
    else r :: dedupKey kt rs (kt r :: seen)

/-- The `no_income` candidate. -/
def noIncomeRec : Rec :=
  ⟨"no_income", "No se detectaron ingresos",
   "Registra tus ingresos para obtener recomendaciones más precisas.",
   some 1.0, some "Registrar ingreso"⟩

/-- The `negative_balance` candidate. -/
def negBalRec (g i : ℚ) : Rec :=
  ⟨"negative_balance", "Gastas más de lo que ingresas",
   "Tus gastos (" ++ fmtF 0 g ++ ") superan tus ingresos (" ++ fmtF 0 i ++
     "). Considera reducir gastos.",
   some 0.98, some "Revisar presupuesto"⟩

/-- The `low_saving_margin` candidate (`pct` is the computed saving
percentage `balance / ingresos * 100`). -/
def lowMarginRec (pct : ℚ) : Rec :=
  ⟨"low_saving_margin", "Margen de ahorro bajo",
   "Tu ahorro es " ++ fmtF 1 pct ++ "% de tus ingresos. Intenta ahorrar al menos 5-10%.",
   some 0.9, some "Crear meta de ahorro"⟩

/-- The `healthy_balance` candidate. -/
def healthyRec : Rec :=
  ⟨"healthy_balance", "Balance saludable",
   "Tu balance es positivo. Considera crear o aumentar metas de ahorro.",
   some 0.2, some "Crear o aumentar meta"⟩

/-- The `reduce_category` candidate for a category. -/
def reduceRec (cat : String) (pct amt : ℚ) : Rec :=
  ⟨"reduce_category", "Reduce gastos en " ++ cat,
   "Has gastado " ++ fmtF 1 pct ++ "% en " ++ cat ++ " (" ++ fmtF 0 amt ++
     "). Revisa suscripciones y hábitos.",
   some 0.95, some ("Revisar gastos en " ++ cat)⟩

/-- The `monitor_category` candidate for a category. -/
def monitorRec (cat : String) (pct : ℚ) : Rec :=
  ⟨"monitor_category", "Vigila " ++ cat,
   fmtF 1 pct ++ "% de tus gastos están en " ++ cat ++
     ". Considera reducir un 10% para ahorrar.",
   some 0.6, some ("Reducir gastos en " ++ cat)⟩

/-- The `possible_subscription` candidate for a merchant with `cnt`
recorded charges averaging `avg`. -/
def subCandOf (m : String) (cnt : ℕ) (avg : ℚ) : Rec :=
  ⟨"possible_subscription", "Revisa posible suscripción: " ++ m,
   "Se detectaron " ++ toString cnt ++ " cargos frecuentes (~" ++ fmtF 0 avg ++
     ") en " ++ m ++ ".",
   some 0.85, some "Revisar suscripción"⟩

/-- The `many_small_expenses` candidate. -/
def manySmallRec (cnt : ℕ) (tot : ℚ) : Rec :=
  ⟨"many_small_expenses", "Gastos pequeños que suman mucho",
   "Tienes " ++ toString cnt ++ " gastos pequeños que suman " ++ fmtF 0 tot ++
     ", más del 10% de tus ingresos.",
   some 0.8, some "Consolidar o reducir gastos pequeños"⟩

/-- The `high_expense_ratio` candidate. -/
def highRatioRec : Rec :=
  ⟨"high_expense_ratio", "Gastos muy altos en relación a ingresos",
   "Tus gastos superan el 70% de tus ingresos. Revisa prioridades y reduce gastos no esenciales.",
   some 0.9, some "Reducir gastos no esenciales"⟩

/-- The `over_limit` candidate. -/
def overRec (g lv : ℚ) : Rec :=
  ⟨"over_limit", "Has superado tu límite de gastos",
   "Tus gastos (" ++ fmtF 0 g ++ ") exceden el límite configurado (" ++ fmtF 0 lv ++ ").",
   some 0.92, some "Revisar límite o reducir gastos"⟩

/-- The `within_limit` candidate (the source dict has no
`suggested_action` key, hence `none`). -/
def withinRec (lv : ℚ) : Rec :=
  ⟨"within_limit", "Dentro del límite",
   "Estás dentro del límite mensual (" ++ fmtF 0 lv ++ ").",
   some 0.25, none⟩

/-- The `suggest_goal` candidate (`sug = int(round(ingresos * 0.10))`). -/
def suggestRec (sug : ℤ) : Rec :=
  ⟨"suggest_goal", "Crea una meta de ahorro",
   "Sugerimos una meta inicial de " ++ fmtComma sug ++
     " mensuales (≈10% de tus ingresos).",
   some 0.7, some "Crear meta"⟩

/-- The `daily_tracking` tip. -/
def dailyRec : Rec :=
  ⟨"daily_tracking", "Registra tus movimientos",
   "Llevar control diario ayuda a identificar fugas de dinero.",
   some 0.05, some "Registrar diariamente"⟩

/-- The `automate_saving` tip. -/
def automateRec : Rec :=
  ⟨"automate_saving", "Ahorro automático",
   "Automatiza un porcentaje (ej. 5-20%) para construir el hábito de ahorrar.",
   some 0.04, some "Configurar transferencia automática"⟩

/-- The `no_data` candidate inserted at the front when the transaction
list is empty. -/
def noDataRec : Rec :=
  ⟨"no_data", "No hay datos suficientes",
   "Registra ingresos y gastos para obtener recomendaciones personalizadas.",
   some 1.0, some "Registrar transacciones"⟩

/-- Rule block 1: the four-way balance/income `if/elif/elif/else`. -/
def balancePart (i g b : ℚ) : List Rec :=
  if i = 0 ∧ 0 < g then [noIncomeRec]
  else if b < 0 then [negBalRec g i]
  else if 0 < i ∧ b / i < 0.05 then [lowMarginRec (b / i * 100)]
  else [healthyRec]

/-- One step of rule block 2: the candidate (if any) a top-five category
entry produces, given the total expense. -/
def catEmit (total : ℚ) (p : String × ℚ) : Option Rec :=
  if 30 ≤ p.2 / total * 100 then some (reduceRec p.1 (p.2 / total * 100) p.2)
  else if 15 ≤ p.2 / total * 100 then some (monitorRec p.1 (p.2 / total * 100))
  else none

/-- Rule block 2: per-category concentration over the top five categories
by expense (stable-sorted descending by amount). -/
def catPart (byCat : List (String × ℚ)) : List Rec :=
  if 0 < (byCat.map Prod.snd).sum then
    ((sortD (fun p => p.2) byCat).take 5).filterMap (catEmit ((byCat.map Prod.snd).sum))
  else []

/-- Rule block 3: possible subscriptions — one candidate per merchant key
with at least three recorded charges. -/
def subPart (mm : List (String × List ℚ)) : List Rec :=
  mm.filterMap (fun p =>
    if 3 ≤ p.2.length then
      some (subCandOf p.1 p.2.length (p.2.sum / (p.2.length : ℚ)))
    else none)

/-- Rule block 4: many small expenses. -/
def smallPart (i : ℚ) (cnt : ℕ) (tot : ℚ) : List Rec :=
  if 0 < i ∧ 3 ≤ cnt ∧ i * 0.10 < tot then [manySmallRec cnt tot] else []

/-- Rule block 5: high expense-to-income ratio. -/
def ratioPart (i g : ℚ) : List Rec :=
  if 0 < i ∧ i * 0.7 < g then [highRatioRec] else []

/-- Branch on the converted limit value: over the limit, within it, or a
caught conversion failure (emits nothing). -/
def limiteOf (g : ℚ) : Option ℚ → List Rec
  | some lv => if lv < g then [overRec g lv] else [withinRec lv]
  | Option.none => []

/-- Rule block 6: the configured spending limit.  The gate is Python
truthiness of `limite_gastos`; a failing `float(...)` conversion is caught
and emits nothing. -/
def limitePart (s : Settings) (g : ℚ) : List Rec :=
  if truthy s.limite_gastos then limiteOf g (pyFloat s.limite_gastos) else []

/-- Rule block 7: automatic goal suggestion when `meta_ahorro` is falsy
and there is income. -/
def metaPart (s : Settings) (i : ℚ) : List Rec :=
  if ¬ truthy s.meta_ahorro ∧ 0 < i then [suggestRec (rhe (i * 0.10))] else []

/-- The candidate list exactly as `generate_recommendations` has built it
just before the final sort-and-deduplicate step (rule blocks in source
order, the two generic tips, and the `no_data` candidate inserted at index
0 when the transaction list is empty). -/
def emitRecs (txs : List Tx) (s : Settings) : List Rec :=
  let a := aggregate txs
  let b := a.ingresos - a.gastos
  let base :=
    balancePart a.ingresos a.gastos b ++ catPart a.by_category ++
      subPart a.merchant_map ++ smallPart a.ingresos a.small_count a.small_total ++
      ratioPart a.ingresos a.gastos ++ limitePart s a.gastos ++
      metaPart s a.ingresos ++ [dailyRec, automateRec]
  if txs.length = 0 then noDataRec :: base else base

/-- The ranker/deduplicator and entry point: stable-sort the emitted
candidates by descending score and deduplicate by `(type, title)` keeping
the first occurrence after sorting.  (`fetch_user_data` is external I/O;
its two results are the arguments.) -/
def generate_recommendations (txs : List Tx) (s : Settings) : List Rec :=
  dedupTT (sortD recKey (emitRecs txs s)) []

/-!
The superseded temp-branch iteration
(`GGastosmart-JP-Y-D1-temp-branch/GastoSmart-Backend/database/recommendation_operation.py`).
It sums raw `amount` values directly (so it only runs without raising on
numeric amounts, the domain modelled here), compares exact type labels,
keys subscription detection on `(merchant, abs(amount))` pairs, and sorts
without deduplicating.
-/

/-- Transaction record as consumed by the temp-branch generator
(`t.get("amount", 0)` summed directly — numeric amounts). -/
structure TxTB : Type where
  type : Option String
  amount : ℚ
  merchant : Option String
  description : Option String
deriving DecidableEq, Repr

/-- Settings record as consumed by the temp-branch generator
(numeric-or-absent preferences, since they are compared to numbers). -/
structure SettingsTB : Type where
  meta_ahorro : Option ℚ
  limite_gastos : Option ℚ
deriving DecidableEq, Repr

/-- Python `str(q)` for a number interpolated into a temp-branch detail
string (injective stand-in rendering for non-integers). -/
def pyNumStr (q : ℚ) : String := pyStrOf (PyVal.num q)

/-- Temp branch: `t.get("type") in ("ingreso", "income")` (exact match). -/
def isIncomeTB (t : TxTB) : Bool :=
  match t.type with
  | some s => s == "ingreso" || s == "income"
  | none => false

/-- Temp branch: `t.get("type") in ("gasto", "expense")` (exact match). -/
def isExpenseTB (t : TxTB) : Bool :=
  match t.type with
  | some s => s == "gasto" || s == "expense"
  | none => false

/-- Temp branch total income. -/
def ingresosTB (txs : List TxTB) : ℚ := ((txs.filter isIncomeTB).map TxTB.amount).sum

/-- Temp branch total expense. -/
def gastosTB (txs : List TxTB) : ℚ := ((txs.filter isExpenseTB).map TxTB.amount).sum

/-- Temp branch merchant key
(`(t.get("merchant") or t.get("description") or "").strip().lower()`). -/
def merchKeyTB (t : TxTB) : String :=
  toLowerS (pyStrip
    (if truthyS t.merchant then t.merchant.getD ""
     else if truthyS t.description then t.description.getD ""
     else ""))

/-- Increment an insertion-ordered counter dict at a key. -/
def bumpCount : List ((String × ℚ) × ℕ) → (String × ℚ) → List ((String × ℚ) × ℕ)
  | [], k => [(k, 1)]
  | (k', c) :: rest, k =>
    if k' = k then (k', c + 1) :: rest else (k', c) :: bumpCount rest k

/-- Temp branch `merchant_counts`: occurrences of each
`(merchant key, abs(amount))` pair over expense transactions. -/
def merchantCountsTB (txs : List TxTB) : List ((String × ℚ) × ℕ) :=
  txs.foldl
    (fun acc t =>
      if isExpenseTB t then
        let m := merchKeyTB t
        if m ≠ "" then bumpCount acc (m, |t.amount|) else acc
      else acc)
    []

/-- Temp branch `miss_saving_goal` candidate. -/
def missRecTB (mv : ℚ) : Rec :=
  ⟨"miss_saving_goal", "No alcanzas la meta de ahorro",
   "No alcanzaste la meta de ahorro mensual (" ++ pyNumStr mv ++
     "). Reduce gastos no esenciales.",
   some 0.85, none⟩

/-- Temp branch `achieved_saving_goal` candidate. -/
def achievedRecTB (mv : ℚ) : Rec :=
  ⟨"achieved_saving_goal", "Meta de ahorro cumplida",
   "Has alcanzado o superado la meta de ahorro (" ++ pyNumStr mv ++
     "). ¡Buen trabajo!",
   some 0.4, none⟩

/-- Temp branch rule 1: the three-way balance `if/elif/else`. -/
def balanceTBpart (i b : ℚ) : List Rec :=
  if b < 0 then
    [⟨"negative_balance", "Balance negativo",
      "Tu balance mensual es negativo. Considera reducir gastos variables.",
      some 1.0, none⟩]
  else if 0 < i ∧ b < i * 0.1 then
    [⟨"low_saving_margin", "Margen de ahorro bajo",
      "Tu margen de ahorro es menor al 10% de tus ingresos. Intenta reservar al menos el 10%.",
      some 0.9, none⟩]
  else
    [⟨"healthy_balance", "Balance saludable",
      "Tu balance parece saludable. Mantén el buen hábito.",
      some 0.2, none⟩]

/-- Temp branch rule 2: high spending. -/
def highTBpart (i g : ℚ) : List Rec :=
  if 0 < i ∧ i * 0.7 < g then
    [⟨"high_spending", "Gastos altos",
      "Estás gastando más del 70% de tus ingresos. Revisa gastos esenciales.",
      some 0.95, none⟩]
  else []

/-- Temp branch rule 3 on the fetched preference value. -/
def metaTBof (b : ℚ) : Option ℚ → List Rec
  | some mv => if mv ≠ 0 then (if b < mv then [missRecTB mv] else [achievedRecTB mv]) else []
  | none => []

/-- Temp branch rule 3: the missed/achieved saving-goal pair, gated on
truthiness of `meta_ahorro` (`if meta_ahorro:`). -/
def metaTBpart (s : SettingsTB) (b : ℚ) : List Rec :=
  metaTBof b s.meta_ahorro

/-- Temp branch rule 4 on the fetched preference value. -/
def limiteTBof (g : ℚ) : Option ℚ → List Rec
  | some lv =>
    if lv < g then
      [⟨"over_limit", "Límite de gastos superado",
        "Has superado tu límite de gastos configurado (" ++ pyNumStr lv ++
          "). Ajusta tus compras.",
        some 0.9, none⟩]
    else
      [⟨"within_limit", "Dentro del límite",
        "Aún no superas tu límite mensual de gastos.", some 0.3, none⟩]
  | none => []

/-- Temp branch rule 4: the spending limit, gated on
`limite_gastos is not None` (zero does fire here). -/
def limiteTBpart (s : SettingsTB) (g : ℚ) : List Rec :=
  limiteTBof g s.limite_gastos

/-- Temp branch rule 5: subscription detection over the
`(merchant, abs(amount))` counts. -/
def subsTBpart (txs : List TxTB) : List Rec :=
  (merchantCountsTB txs).filterMap (fun p =>
    if 3 ≤ p.2 then
      some ⟨"possible_subscription", "Suscripción detectada: " ++ p.1.1,
        "Se detectaron " ++ toString p.2 ++ " cargos similares de " ++
          pyNumStr p.1.2 ++ ". Revisa si aún lo necesitas.",
        some 0.8, none⟩
    else none)

/-- The candidate list built by the temp-branch generator in source order. -/
def emitRecsTB (txs : List TxTB) (s : SettingsTB) : List Rec :=
  balanceTBpart (ingresosTB txs) (ingresosTB txs - gastosTB txs) ++
    highTBpart (ingresosTB txs) (gastosTB txs) ++
    metaTBpart s (ingresosTB txs - gastosTB txs) ++
    limiteTBpart s (gastosTB txs) ++ subsTBpart txs ++
    [⟨"daily_tracking", "Registra diariamente",
      "Registrar tus gastos diariamente ayuda a detectar fugas de dinero.",
      some 0.1, none⟩,
     ⟨"automate_saving", "Automatiza ahorro",
      "Considera automatizar un ahorro del 10–20% de tus ingresos.",
      some 0.1, none⟩]

/-- The temp-branch generator: stable-sort by descending score and
re-project every candidate (no deduplication in this iteration). -/
def generateTB (txs : List TxTB) (s : SettingsTB) : List Rec :=
  (sortD recKey (emitRecsTB txs s)).map projectRec

/-!
The `apply_recommendation` action applier, modelled as a pure transition
on an explicit store state.  Collection availability collapses the
duck-typed collection resolution (including deriving `goals` from the
transaction collection's database) into booleans; `datetime.utcnow()` is
the explicit `now` argument.
-/

/-- A goal document as built by the goal-creation path. -/
structure Goal : Type where
  user_id : String
  name : String
  target_amount : ℚ
  current_amount : ℚ
  created_at : ℤ
  meta_type : String
  source : String
deriving DecidableEq, Repr

/-- The request metadata dict (the two keys the applier reads;
`PyVal.none` models both an absent `amount` key and a null value, which
the code treats alike via `metadata.get("amount") is None`). -/
structure Meta : Type where
  amount : PyVal
  name : Option String
deriving DecidableEq, Repr

/-- An acknowledged-action log entry
(`{"rec_type": ..., "metadata": ..., "applied_at": ...}`). -/
structure ActionNote : Type where
  rec_type : Option String
  metadata : Meta
  applied_at : ℤ
deriving DecidableEq, Repr

/-- The observable store state the applier can read or mutate: fresh
transaction data (for the income recomputation), availability of the two
writable stores, and their contents. -/
structure ApplyState : Type where
  txs : List Tx
  goalsAvail : Bool
  settingsAvail : Bool
  goalsDocs : List Goal
  settingsGoals : List Goal
  actionLog : List ActionNote
deriving DecidableEq, Repr

/-- The apply request payload after dict extraction
(`rec_type`, fallback `type`, `metadata`, `confirm`). -/
structure ApplyReq : Type where
  rec_type : Option String
  typeAlt : Option String
  metadata : Option Meta
  confirm : Bool
deriving DecidableEq, Repr

/-- The `{success, detail}` result dict. -/
structure ApplyResult : Type where
  success : Bool
  detail : String
deriving DecidableEq, Repr

/-- The resolution `rec_type = payload.get("rec_type") or payload.get("type")`
(a falsy `rec_type` — absent or empty — falls back to `type`). -/
def resolvedRecType (r : ApplyReq) : Option String :=
  match r.rec_type with
  | some s => if s ≠ "" then some s else r.typeAlt
  | none => r.typeAlt

/-- The goal-creation vocabulary. -/
def goalTypes : List String := ["suggest_goal", "goal_suggestion", "create_goal"]

/-- The acknowledged-action vocabulary. -/
def logTypes : List String :=
  ["reduce_category", "monitor_category", "possible_subscription", "many_small_expenses"]

/-- Total income recomputed from fresh transaction data inside the
goal-creation path:
`sum(self._parse_amount(t) for t in transactions if self._is_income(t))`. -/
def incomeOfTxs (txs : List Tx) : ℚ := ((txs.filter isIncomeB).map parseAmount).sum

/-- The `apply_recommendation` transition: returns the result dict and the
(possibly updated) store state.  A raising `float(amount)` on a present
metadata amount is caught by the surrounding `except` and surfaces as the
non-mutating "Error al crear la meta." result. -/
def apply_recommendation (st : ApplyState) (uid : String) (req : ApplyReq) (now : ℤ) :
    ApplyResult × ApplyState :=
  let recType := resolvedRecType req
  let md := req.metadata.getD ⟨PyVal.none, none⟩
  if ¬ req.confirm then (⟨false, "Acción no confirmada por el usuario."⟩, st)
  else if (match recType with | some t => goalTypes.contains t | none => false) then
    let amountE : Except String ℚ :=
      match md.amount with
      | PyVal.none =>
        let ing := incomeOfTxs st.txs
        Except.ok (if 0 < ing then ((rhe (ing * 0.10) : ℤ) : ℚ) else 50000)
      | v => pyFloatE v
    match amountE with
    | Except.error _ => (⟨false, "Error al crear la meta."⟩, st)
    | Except.ok amt =>
      let gname := if truthyS md.name then md.name.getD "" else "Ahorro sugerido"
      let goal : Goal := ⟨uid, gname, amt, 0, now, "savings", "recommendation"⟩
      if st.goalsAvail then
        (⟨true, "Meta creada"⟩, { st with goalsDocs := st.goalsDocs ++ [goal] })
      else if st.settingsAvail then
        (⟨true, "Meta añadida a user_settings.goals"⟩,
         { st with settingsGoals := st.settingsGoals ++ [goal] })
      else (⟨false, "No hay colección goals ni user_settings disponible."⟩, st)
  else if (match recType with | some t => logTypes.contains t | none => false) then
    if st.settingsAvail then
      (⟨true, "Acción registrada en user_settings"⟩,
       { st with actionLog := st.actionLog ++ [⟨recType, md, now⟩] })
    else (⟨false, "No hay user_settings para registrar la acción."⟩, st)
  else (⟨false, "Tipo de recomendación no soportado."⟩, st)

/-!
The `_normalize_transaction` input domain: a raw record is `None`, a dict,
or an object; an object may expose a `dict()` method (which may itself
raise — caught by the surrounding `try`) or is read attribute-by-attribute
with `getattr` defaults.
-/

/-- An object-shaped raw record: an optional (possibly raising) `dict()`
method and the attributes the manual fallback reads (absent = `none`). -/
structure PyObj : Type where
  dictFn : Option (Except String Tx)
  user_id : Option String
  type : Option String
  amount : Option PyVal
  category : Option String
  description : Option String
  merchant : Option String
  date : Option PyVal

/-- A raw transaction record of unknown shape. -/
inductive RawTx : Type where
  | none : RawTx
  | dict : Tx → RawTx
  | obj : PyObj → RawTx

/-- The `_normalize_transaction` helper with its exception flow explicit:
`None → {}`; a dict is returned as-is; an object goes through `t.dict()`
when present, else the manual `getattr` build (defaults `None` / `0`), and
any raised error is caught, returning `{}`. -/
def normalizeE (r : RawTx) : Except String Tx :=
  match r with
  | RawTx.none => Except.ok emptyTx
  | RawTx.dict t => Except.ok t
  | RawTx.obj o =>
    tryc
      (match o.dictFn with
       | some res => res
       | none =>
         Except.ok
           ⟨o.user_id, o.type, o.amount.getD (PyVal.num 0), o.category,
            o.description, o.merchant, o.date.getD PyVal.none⟩)
      (fun _ => Except.ok emptyTx)

/-!
Toolkit: properties of the stable descending sort and of first-occurrence
deduplication.
-/

theorem mem_insertD {α : Type} (k : α → ℚ) (r : α) (l : List α) (a : α) :
    a ∈ insertD k r l ↔ a = r ∨ a ∈ l := by
  induction l with
  | nil => simp [insertD]
  | cons x xs ih =>
    by_cases h : k x ≤ k r
    · simp [insertD, h]
    · simp only [insertD, if_neg h, List.mem_cons, ih]
      tauto

theorem insertD_perm {α : Type} (k : α → ℚ) (r : α) (l : List α) :
    (insertD k r l).Perm (r :: l) := by
  induction l with
  | nil => simp [insertD]
  | cons x xs ih =>
    by_cases h : k x ≤ k r
    · simp [insertD, h]
    · simp only [insertD, if_neg h]
      exact (ih.cons x).trans (List.Perm.swap r x xs)

theorem sortD_perm {α : Type} (k : α → ℚ) (l : List α) : (sortD k l).Perm l := by
  induction l with
  | nil => simp [sortD]
  | cons x xs ih => exact (insertD_perm k x (sortD k xs)).trans (ih.cons x)

theorem mem_sortD {α : Type} (k : α → ℚ) (l : List α) (a : α) :
    a ∈ sortD k l ↔ a ∈ l := (sortD_perm k l).mem_iff

theorem sortedD_insertD {α : Type} (k : α → ℚ) (r : α) (l : List α)
    (h : l.Pairwise (fun a b => k b ≤ k a)) :
    (insertD k r l).Pairwise (fun a b => k b ≤ k a) := by
  induction l with
  | nil => simp [insertD]
  | cons x xs ih =>
    rcases List.pairwise_cons.mp h with ⟨hx, hxs⟩
    by_cases hle : k x ≤ k r
    · simp only [insertD, if_pos hle]
      refine List.pairwise_cons.mpr ⟨?_, h⟩
      intro b hb
      rcases List.mem_cons.mp hb with rfl | hb
      · exact hle
      · exact le_trans (hx b hb) hle
    · simp only [insertD, if_neg hle]
      refine List.pairwise_cons.mpr ⟨?_, ih hxs⟩
      intro b hb
      rcases (mem_insertD k r xs b).mp hb with rfl | hb
      · exact le_of_lt (lt_of_not_le hle)
      · exact hx b hb

theorem sortedD_sortD {α : Type} (k : α → ℚ) (l : List α) :
    (sortD k l).Pairwise (fun a b => k b ≤ k a) := by
  induction l with
  | nil => simp [sortD]
  | cons x xs ih => exact sortedD_insertD k x (sortD k xs) ih

theorem pair_sublist_insertD {α : Type} (k : α → ℚ) {r a b : α} {l : List α}
    (hk : k a = k b) (hs : l.Pairwise (fun x y => k y ≤ k x))
    (h : [a, b].Sublist (insertD k r l)) :
    [a, b].Sublist l ∨ (a = r ∧ b ∈ l) := by
  induction l with
  | nil =>
    simp only [insertD] at h
    have := h.length_le
    simp at this
  | cons x xs ih =>
    rcases List.pairwise_cons.mp hs with ⟨hx, hxs⟩
    by_cases hle : k x ≤ k r
    · simp only [insertD, if_pos hle] at h
      rcases List.sublist_cons_iff.mp h with h' | ⟨tl, heq, h'⟩
      · exact Or.inl h'
      · rcases List.cons_eq_cons.mp heq with ⟨rfl, rfl⟩
        exact Or.inr ⟨rfl, List.singleton_sublist.mp h'⟩
    · simp only [insertD, if_neg hle] at h
      rcases List.sublist_cons_iff.mp h with h' | ⟨tl, heq, h'⟩
      · rcases ih hxs h' with h'' | ⟨ha, hb⟩
        · exact Or.inl (h''.cons x)
        · exact Or.inr ⟨ha, List.mem_cons_of_mem x hb⟩
      · rcases List.cons_eq_cons.mp heq with ⟨rfl, rfl⟩
        have hb : b ∈ insertD k r xs := List.singleton_sublist.mp h'
        rcases (mem_insertD k r xs b).mp hb with rfl | hb
        · exact absurd (le_of_eq hk) hle
        · exact Or.inl ((List.singleton_sublist.mpr hb).cons₂ a)

theorem pair_sublist_sortD {α : Type} (k : α → ℚ) {a b : α} {l : List α}
    (hk : k a = k b) (h : [a, b].Sublist (sortD k l)) : [a, b].Sublist l := by
  induction l with
  | nil => simp [sortD] at h
  | cons x xs ih =>
    simp only [sortD] at h
    rcases pair_sublist_insertD k hk (sortedD_sortD k xs) h with h' | ⟨rfl, hb⟩
    · exact (ih h').cons x
    · exact (List.singleton_sublist.mpr ((mem_sortD k xs b).mp hb)).cons₂ a

theorem sortD_cons_of_max {α : Type} (k : α → ℚ) (r : α) (l : List α)
    (h : ∀ x ∈ l, k x < k r) : sortD k (r :: l) = r :: sortD k l := by
  show insertD k r (sortD k l) = r :: sortD k l
  cases hs : sortD k l with
  | nil => simp [insertD]
  | cons x xs =>
    have hx : x ∈ sortD k l := by simp [hs]
    have : k x ≤ k r := le_of_lt (h x ((mem_sortD k l x).mp hx))
    simp [insertD, this]

theorem projectRec_eq (r : Rec) : projectRec r = r := rfl

theorem dedupTT_eq_dedupKey (l : List Rec) (seen : List (String × String)) :
    dedupTT l seen = dedupKey keyTT l seen := by
  induction l generalizing seen with
  | nil => rfl
  | cons r rs ih =>
    by_cases h : keyTT r ∈ seen <;>
      simp [dedupTT, dedupKey, h, ih, projectRec_eq]

theorem dedupKey_sublist {α β : Type} [DecidableEq β] (kt : α → β) (l : List α)
    (seen : List β) : (dedupKey kt l seen).Sublist l := by
  induction l generalizing seen with
  | nil => simp [dedupKey]
  | cons r rs ih =>
    by_cases h : kt r ∈ seen
    · simp only [dedupKey, if_pos h]
      exact (ih seen).cons r
    · simp only [dedupKey, if_neg h]
      exact (ih (kt r :: seen)).cons₂ r

theorem mem_dedupKey {α β : Type} [DecidableEq β] (kt : α → β) (l : List α)
    (seen : List β) (a : α) :
    a ∈ dedupKey kt l seen ↔
      kt a ∉ seen ∧ ∃ p q, l = p ++ a :: q ∧ ∀ x ∈ p, kt x ≠ kt a := by
  induction l generalizing seen with
  | nil =>
    constructor
    · intro h
      simp [dedupKey] at h
    · rintro ⟨-, p, q, heq, -⟩
      exact absurd heq (by simp)
  | cons r rs ih =>
    by_cases h : kt r ∈ seen
    · rw [dedupKey, if_pos h, ih]
      constructor
      · rintro ⟨hns, p, q, heq, hp⟩
        refine ⟨hns, r :: p, q, by rw [heq]; rfl, ?_⟩
        intro x hx
        rcases List.mem_cons.mp hx with rfl | hx
        · intro hcontra
          exact hns (hcontra ▸ h)
        · exact hp x hx
      · rintro ⟨hns, p, q, heq, hp⟩
        cases p with
        | nil =>
          rcases List.cons_eq_cons.mp heq with ⟨rfl, -⟩
          exact absurd h hns
        | cons y p' =>
          rcases List.cons_eq_cons.mp heq with ⟨rfl, hrs⟩
          exact ⟨hns, p', q, hrs, fun x hx => hp x (List.mem_cons_of_mem _ hx)⟩
    · rw [dedupKey, if_neg h]
      constructor
      · intro hmem
        rcases List.mem_cons.mp hmem with rfl | hmem
        · exact ⟨h, [], rs, rfl, by simp⟩
        · rcases (ih (kt r :: seen)).mp hmem with ⟨hns, p, q, heq, hp⟩
          have hra : kt r ≠ kt a := fun hc => hns (by rw [← hc]; exact List.mem_cons_self _ _)
          refine ⟨fun hc => hns (List.mem_cons_of_mem _ hc), r :: p, q, by rw [heq]; rfl, ?_⟩
          intro x hx
          rcases List.mem_cons.mp hx with rfl | hx
          · exact hra
          · exact hp x hx
      · rintro ⟨hns, p, q, heq, hp⟩
        cases p with
        | nil =>
          rcases List.cons_eq_cons.mp heq with ⟨rfl, -⟩
          exact List.mem_cons_self _ _
        | cons y p' =>
          rcases List.cons_eq_cons.mp heq with ⟨rfl, hrs⟩
          refine List.mem_cons_of_mem _ ((ih (kt r :: seen)).mpr ?_)
          have hra : kt r ≠ kt a := hp r (List.mem_cons_self _ _)
          refine ⟨?_, p', q, hrs, fun x hx => hp x (List.mem_cons_of_mem _ hx)⟩
          intro hc
          rcases List.mem_cons.mp hc with hc | hc
          · exact hra hc.symm
          · exact hns hc

theorem pairwise_ne_dedupKey {α β : Type} [DecidableEq β] (kt : α → β) (l : List α)
    (seen : List β) :
    (dedupKey kt l seen).Pairwise (fun a b => kt a ≠ kt b) := by
  induction l generalizing seen with
  | nil => simp [dedupKey]
  | cons r rs ih =>
    by_cases h : kt r ∈ seen
    · simp only [dedupKey, if_pos h]
      exact ih seen
    · simp only [dedupKey, if_neg h]
      refine List.pairwise_cons.mpr ⟨?_, ih (kt r :: seen)⟩
      intro b hb
      have hns := ((mem_dedupKey kt rs (kt r :: seen) b).mp hb).1
      intro hc
      exact hns (by rw [← hc]; exact List.mem_cons_self _ _)

theorem filter_eq_singleton_split {α : Type} (P : α → Bool) :
    ∀ {l : List α} {v : α}, l.filter P = [v] →
      ∃ p q, l = p ++ v :: q ∧ (∀ x ∈ p, P x = false) := by
  intro l
  induction l with
  | nil => intro v h; simp at h
  | cons x xs ih =>
    intro v h
    by_cases hx : P x
    · rw [List.filter_cons_of_pos hx] at h
      rcases List.cons_eq_cons.mp h with ⟨rfl, -⟩
      exact ⟨[], xs, rfl, by simp⟩
    · rw [List.filter_cons_of_neg hx] at h
      rcases ih h with ⟨p, q, heq, hp⟩
      refine ⟨x :: p, q, by rw [heq]; rfl, ?_⟩
      intro y hy
      rcases List.mem_cons.mp hy with rfl | hy
      · exact Bool.eq_false_iff.mpr hx
      · exact hp y hy

theorem mem_generate_of_filter (txs : List Tx) (s : Settings) (P : Rec → Bool)
    (hP : ∀ a b : Rec, keyTT a = keyTT b → P a = P b) (v : Rec)
    (hf : (emitRecs txs s).filter P = [v]) :
    v ∈ generate_recommendations txs s ∧
      (generate_recommendations txs s).countP P = 1 := by
  have hgen : generate_recommendations txs s =
      dedupKey keyTT (sortD recKey (emitRecs txs s)) [] :=
    dedupTT_eq_dedupKey _ _
  have hpermf : ((sortD recKey (emitRecs txs s)).filter P).Perm
      ((emitRecs txs s).filter P) := (sortD_perm recKey (emitRecs txs s)).filter P
  have hLf : (sortD recKey (emitRecs txs s)).filter P = [v] := by
    have := hpermf.trans (by rw [hf])
    exact List.perm_singleton.mp this
  have hPv : P v = true := by
    have hvmem : v ∈ (sortD recKey (emitRecs txs s)).filter P := by
      rw [hLf]; exact List.mem_cons_self _ _
    exact (List.mem_filter.mp hvmem).2
  rcases filter_eq_singleton_split P hLf with ⟨p, q, heq, hp⟩
  have hvout : v ∈ generate_recommendations txs s := by
    rw [hgen]
    refine (mem_dedupKey keyTT _ [] v).mpr ⟨by simp, p, q, heq, ?_⟩
    intro x hx hc
    have := hP x v hc
    rw [hp x hx] at this
    rw [hPv] at this
    exact Bool.false_ne_true this
  refine ⟨hvout, le_antisymm ?_ ?_⟩
  · have h1 : (generate_recommendations txs s).countP P ≤
        (sortD recKey (emitRecs txs s)).countP P := by
      rw [hgen]
      exact (dedupKey_sublist keyTT _ []).countP_le P
    have h2 : (sortD recKey (emitRecs txs s)).countP P = 1 := by
      rw [List.countP_eq_length_filter, hLf]
      rfl
    omega
  · have : 0 < (generate_recommendations txs s).countP P :=
      List.countP_pos_iff.mpr ⟨v, hvout, hPv⟩
    omega

theorem countP_generate (txs : List Tx) (s : Settings) (P : Rec → Bool)
    (hP : ∀ a b : Rec, keyTT a = keyTT b → P a = P b)
    (h1 : (emitRecs txs s).countP P = 1) :
    (generate_recommendations txs s).countP P = 1 := by
  have hl : ((emitRecs txs s).filter P).length = 1 := by
    rw [← List.countP_eq_length_filter]
    exact h1
  rcases List.length_eq_one.mp hl with ⟨v, hv⟩
  exact (mem_generate_of_filter txs s P hP v hv).2

/-!
Toolkit: which candidate types each rule block can emit.
-/

theorem balancePart_cases (i g b : ℚ) (r : Rec) (h : r ∈ balancePart i g b) :
    r = noIncomeRec ∨ r = negBalRec g i ∨ r = lowMarginRec (b / i * 100) ∨
      r = healthyRec := by
  unfold balancePart at h
  split_ifs at h <;> simp at h <;> tauto

theorem catEmit_types (total : ℚ) (p : String × ℚ) (r : Rec)
    (h : catEmit total p = some r) :
    r.type = "reduce_category" ∨ r.type = "monitor_category" := by
  unfold catEmit at h
  split_ifs at h
  · rw [← Option.some_inj.mp h]
    exact Or.inl rfl
  · rw [← Option.some_inj.mp h]
    exact Or.inr rfl

theorem catPart_types (bc : List (String × ℚ)) (r : Rec) (h : r ∈ catPart bc) :
    r.type = "reduce_category" ∨ r.type = "monitor_category" := by
  unfold catPart at h
  split_ifs at h
  · rcases List.mem_filterMap.mp h with ⟨p, -, hp⟩
    exact catEmit_types _ p r hp
  · simp at h

theorem subPart_shape (mm : List (String × List ℚ)) (r : Rec) (h : r ∈ subPart mm) :
    ∃ p ∈ mm, 3 ≤ p.2.length ∧ r = subCandOf p.1 p.2.length (p.2.sum / (p.2.length : ℚ)) := by
  unfold subPart at h
  rcases List.mem_filterMap.mp h with ⟨p, hp, hr⟩
  split_ifs at hr with hlen
  · simp at hr
    exact ⟨p, hp, hlen, hr.symm⟩

theorem smallPart_types (i : ℚ) (cnt : ℕ) (tot : ℚ) (r : Rec)
    (h : r ∈ smallPart i cnt tot) : r.type = "many_small_expenses" := by
  unfold smallPart at h
  split_ifs at h <;> simp at h
  subst h
  rfl

theorem ratioPart_types (i g : ℚ) (r : Rec) (h : r ∈ ratioPart i g) :
    r.type = "high_expense_ratio" := by
  unfold ratioPart at h
  split_ifs at h <;> simp at h
  subst h
  rfl

theorem limitePart_shape (s : Settings) (g : ℚ) (r : Rec) (h : r ∈ limitePart s g) :
    ∃ lv, r = overRec g lv ∨ r = withinRec lv := by
  unfold limitePart at h
  split_ifs at h
  · rcases hfl : pyFloat s.limite_gastos with - | lv <;> rw [hfl] at h
    · simp [limiteOf] at h
    · simp only [limiteOf] at h
      split_ifs at h <;> simp at h <;> exact ⟨lv, by tauto⟩
  · simp at h

theorem limitePart_key (s : Settings) (g : ℚ) (r : Rec) (h : r ∈ limitePart s g) :
    recKey r ≤ 0.92 := by
  rcases limitePart_shape s g r h with ⟨lv, rfl | rfl⟩
  · norm_num [recKey, overRec]
  · norm_num [recKey, withinRec]

theorem metaPart_types (s : Settings) (i : ℚ) (r : Rec) (h : r ∈ metaPart s i) :
    r.type = "suggest_goal" := by
  unfold metaPart at h
  split_ifs at h <;> simp at h
  subst h
  rfl

/-!
Claim theorems.
-/

/-- Claim C5: for every request with `confirm = false`,
`apply_recommendation` returns the non-error "not applied" result
(`success = false`) and leaves every store unchanged. -/
theorem C5_apply_unconfirmed_noop (st : ApplyState) (uid : String) (req : ApplyReq)
    (now : ℤ) (h : req.confirm = false) :
    (apply_recommendation st uid req now).1.success = false ∧
      (apply_recommendation st uid req now).1.detail = "Acción no confirmada por el usuario." ∧
      (apply_recommendation st uid req now).2 = st := by
  unfold apply_recommendation
  simp [h]

/-- Witness for C5 at a concrete unconfirmed request. -/
theorem C5_apply_unconfirmed_noop_witness :
    letI st : ApplyState := ⟨[], true, true, [], [], []⟩
    letI req : ApplyReq := ⟨some "suggest_goal", none, some ⟨PyVal.num 7, some "x"⟩, false⟩
    (apply_recommendation st "u" req 0).1.success = false ∧
      (apply_recommendation st "u" req 0).1.detail = "Acción no confirmada por el usuario." ∧
      (apply_recommendation st "u" req 0).2 = st :=
  C5_apply_unconfirmed_noop ⟨[], true, true, [], [], []⟩ "u"
    ⟨some "suggest_goal", none, some ⟨PyVal.num 7, some "x"⟩, false⟩ 0 rfl

theorem parse_tryc (v : PyVal) :
    tryc (pyFloatE v) (fun _ =>
      tryc (pyFloatE (PyVal.str (pyStrip (removeCommas (pyStrOf v))))) (fun _ =>
        Except.ok 0)) =
    Except.ok (match pyFloat v with
      | some q => q
      | Option.none =>
        match pyFloatStr (pyStrip (removeCommas (pyStrOf v))) with
        | some q => q
        | Option.none => 0) := by
  unfold pyFloat
  rcases h1 : pyFloatE v with e | q
  · rcases h2 : pyFloatStr (pyStrip (removeCommas (pyStrOf v))) with - | q
    · simp [tryc, pyFloatE, h2, Except.toOption]
    · simp [tryc, pyFloatE, h2, Except.toOption]
  · simp [tryc, Except.toOption]

/-- Claim C9: normalization and amount coercion never fail — every raw
record (null, mapping or object, even with a raising `dict()` method)
normalizes to a mapping with defaulted fields, and `_parse_amount` always
returns a number, any coercion failure yielding `0.0`. -/
theorem C9_normalize_total :
    (∀ r : RawTx, ∃ t : Tx, normalizeE r = Except.ok t) ∧
      normalizeE RawTx.none = Except.ok emptyTx ∧
      (∀ o : PyObj, o.dictFn = Option.none →
        normalizeE (RawTx.obj o) =
          Except.ok ⟨o.user_id, o.type, o.amount.getD (PyVal.num 0), o.category,
            o.description, o.merchant, o.date.getD PyVal.none⟩) ∧
      (∀ t : Tx, parseAmountE t = Except.ok (parseAmount t)) ∧
      (∀ t : Tx,
        pyFloat (if truthy t.amount then t.amount else PyVal.num 0) = Option.none →
        pyFloatStr (pyStrip (removeCommas
          (pyStrOf (if truthy t.amount then t.amount else PyVal.num 0)))) = Option.none →
        parseAmount t = 0) := by
  refine ⟨?_, rfl, ?_, ?_, ?_⟩
  · intro r
    cases r with
    | none => exact ⟨emptyTx, rfl⟩
    | dict t => exact ⟨t, rfl⟩
    | obj o =>
      rcases hfn : o.dictFn with - | res
      · exact ⟨⟨o.user_id, o.type, o.amount.getD (PyVal.num 0), o.category,
          o.description, o.merchant, o.date.getD PyVal.none⟩,
          by simp [normalizeE, hfn, tryc]⟩
      · cases res with
        | ok t => exact ⟨t, by simp [normalizeE, hfn, tryc]⟩
        | error e => exact ⟨emptyTx, by simp [normalizeE, hfn, tryc]⟩
  · intro o hfn
    simp [normalizeE, hfn, tryc]
  · intro t
    exact parse_tryc (if truthy t.amount then t.amount else PyVal.num 0)
  · intro t h1 h2
    simp only [parseAmount]
    rw [h1, h2]

/-- Witness for C9: a non-numeric amount string fails both coercions and
parses to zero. -/
theorem C9_normalize_total_witness :
    pyFloat (if truthy (Tx.amount ⟨none, none, PyVal.str "abc", none, none, none, PyVal.none⟩)
        then Tx.amount ⟨none, none, PyVal.str "abc", none, none, none, PyVal.none⟩
        else PyVal.num 0) = Option.none ∧
      parseAmount ⟨none, none, PyVal.str "abc", none, none, none, PyVal.none⟩ = 0 :=
  ⟨by decide, C9_normalize_total.2.2.2.2 ⟨none, none, PyVal.str "abc", none, none, none, PyVal.none⟩
    (by decide) (by decide)⟩

/-- Claim C10: for income 100000 and expense 96000 (balance 4000, 4% of
income) the output contains the low-saving-margin candidate, its detail
embeds the computed saving percentage formatted to one decimal, and that
percentage renders as "4.0". -/
theorem C10_low_margin_detail :
    lowMarginRec ((100000 - 96000) / 100000 * 100) ∈
      generate_recommendations
        [⟨none, some "ingreso", PyVal.num 100000, none, none, none, PyVal.none⟩,
         ⟨none, some "gasto", PyVal.num 96000, none, none, none, PyVal.none⟩]
        ⟨PyVal.none, PyVal.none⟩ ∧
      (lowMarginRec ((100000 - 96000) / 100000 * 100)).detail =
        "Tu ahorro es " ++ fmtF 1 ((100000 - 96000) / 100000 * 100) ++
          "% de tus ingresos. Intenta ahorrar al menos 5-10%." ∧
      ((100000 - 96000) / 100000 * 100 : ℚ) = 4 ∧
      fmtF 1 ((100000 - 96000) / 100000 * 100) = "4.0" := by
  refine ⟨by decide, rfl, by norm_num, by decide⟩

/-- The four balance-family candidate types (exactly one of which rule
block 1 emits). -/
def balanceFamP (r : Rec) : Bool :=
  r.type == "no_income" || r.type == "negative_balance" ||
    r.type == "low_saving_margin" || r.type == "healthy_balance"

theorem keyTT_type_eq {a b : Rec} (h : keyTT a = keyTT b) : a.type = b.type :=
  congrArg Prod.fst h

theorem keyTT_title_eq {a b : Rec} (h : keyTT a = keyTT b) : a.title = b.title :=
  congrArg Prod.snd h

theorem countP_zero_of_types {P : Rec → Bool} {l : List Rec}
    (h : ∀ r ∈ l, P r = false) : l.countP P = 0 :=
  List.countP_eq_zero.mpr (by
    intro a ha
    simp [h a ha])

theorem balancePart_countP (i g b : ℚ) :
    (balancePart i g b).countP balanceFamP = 1 := by
  unfold balancePart
  split_ifs <;> rfl

theorem emit_countP_balanceFam (txs : List Tx) (s : Settings) :
    (emitRecs txs s).countP balanceFamP = 1 := by
  unfold emitRecs
  have hcat : (catPart (aggregate txs).by_category).countP balanceFamP = 0 :=
    countP_zero_of_types (fun r hr => by
      rcases catPart_types _ r hr with h | h <;> simp [balanceFamP, h])
  have hsub : (subPart (aggregate txs).merchant_map).countP balanceFamP = 0 :=
    countP_zero_of_types (fun r hr => by
      rcases subPart_shape _ r hr with ⟨p, -, -, rfl⟩
      rfl)
  have hsmall : (smallPart (aggregate txs).ingresos (aggregate txs).small_count
      (aggregate txs).small_total).countP balanceFamP = 0 :=
    countP_zero_of_types (fun r hr => by
      have := smallPart_types _ _ _ r hr
      simp [balanceFamP, this])
  have hratio : (ratioPart (aggregate txs).ingresos (aggregate txs).gastos).countP
      balanceFamP = 0 :=
    countP_zero_of_types (fun r hr => by
      have := ratioPart_types _ _ r hr
      simp [balanceFamP, this])
  have hlim : (limitePart s (aggregate txs).gastos).countP balanceFamP = 0 :=
    countP_zero_of_types (fun r hr => by
      rcases limitePart_shape _ _ r hr with ⟨lv, rfl | rfl⟩ <;> rfl)
  have hmeta : (metaPart s (aggregate txs).ingresos).countP balanceFamP = 0 :=
    countP_zero_of_types (fun r hr => by
      have := metaPart_types _ _ r hr
      simp [balanceFamP, this])
  have hbal := balancePart_countP (aggregate txs).ingresos (aggregate txs).gastos
    ((aggregate txs).ingresos - (aggregate txs).gastos)
  split_ifs <;>
    simp [List.countP_append, List.countP_cons, hbal, hcat, hsub, hsmall, hratio,
      hlim, hmeta] <;> decide

/-- Claim C7: on every input exactly one of the balance-family candidates
(no-income 1.0, negative-balance 0.98, low-saving-margin 0.9, fallback
healthy-balance 0.2) appears in the output; and for income 100000 /
expense 120000 the output includes negative-balance and excludes both
healthy-balance and low-saving-margin. -/
theorem C7_balance_family (txs : List Tx) (s : Settings) :
    (generate_recommendations txs s).countP balanceFamP = 1 ∧
      (letI txs0 : List Tx :=
        [⟨none, some "ingreso", PyVal.num 100000, none, none, none, PyVal.none⟩,
         ⟨none, some "gasto", PyVal.num 120000, none, none, none, PyVal.none⟩]
       (generate_recommendations txs0 ⟨PyVal.none, PyVal.none⟩).countP
          (fun r => r.type == "negative_balance") = 1 ∧
        (generate_recommendations txs0 ⟨PyVal.none, PyVal.none⟩).countP
          (fun r => r.type == "healthy_balance") = 0 ∧
        (generate_recommendations txs0 ⟨PyVal.none, PyVal.none⟩).countP
          (fun r => r.type == "low_saving_margin") = 0) := by
  refine ⟨?_, by decide, by decide, by decide⟩
  refine countP_generate txs s balanceFamP ?_ (emit_countP_balanceFam txs s)
  intro a b h
  unfold balanceFamP
  rw [keyTT_type_eq h]

theorem metaPart_zero (s : Settings) : metaPart s 0 = [] := by
  unfold metaPart
  rw [if_neg]
  rintro ⟨-, h⟩
  exact lt_irrefl 0 h

theorem emit_empty (s : Settings) :
    emitRecs [] s =
      noDataRec :: healthyRec ::
        ((limitePart s 0 ++ metaPart s 0) ++ [dailyRec, automateRec]) := rfl

theorem emit_empty' (s : Settings) :
    emitRecs [] s =
      noDataRec :: healthyRec :: (limitePart s 0 ++ [dailyRec, automateRec]) := by
  rw [emit_empty, metaPart_zero]
  simp

/-- Claim C2: for an empty fetched transaction list the output starts with
the `no_data` candidate (score 1.0), while other rules still fire on the
zero signals (the healthy-balance fallback and the generic tip are also in
the output). -/
theorem C2_no_data_first (s : Settings) :
    (generate_recommendations [] s).head? = some noDataRec ∧
      noDataRec.score = some 1.0 ∧
      healthyRec ∈ generate_recommendations [] s ∧
      dailyRec ∈ generate_recommendations [] s := by
  have htail : ∀ x ∈ healthyRec :: (limitePart s 0 ++ [dailyRec, automateRec]),
      recKey x < recKey noDataRec := by
    intro x hx
    rcases List.mem_cons.mp hx with rfl | hx
    · norm_num [recKey, healthyRec, noDataRec]
    rcases List.mem_append.mp hx with hx | hx
    · have := limitePart_key s 0 x hx
      have h1 : recKey noDataRec = 1 := rfl
      rw [h1]
      calc recKey x ≤ 0.92 := this
        _ < 1 := by norm_num
    · rcases List.mem_cons.mp hx with rfl | hx
      · norm_num [recKey, dailyRec, noDataRec]
      · rcases List.mem_cons.mp hx with rfl | hx
        · norm_num [recKey, automateRec, noDataRec]
        · simp at hx
  have hsort : sortD recKey (emitRecs [] s) =
      noDataRec :: sortD recKey (healthyRec :: (limitePart s 0 ++ [dailyRec, automateRec])) := by
    rw [emit_empty' s]
    exact sortD_cons_of_max recKey noDataRec _ htail
  have hhead : (generate_recommendations [] s).head? = some noDataRec := by
    unfold generate_recommendations
    rw [dedupTT_eq_dedupKey, hsort]
    rw [show dedupKey keyTT (noDataRec :: sortD recKey
        (healthyRec :: (limitePart s 0 ++ [dailyRec, automateRec]))) [] =
      noDataRec :: dedupKey keyTT (sortD recKey
        (healthyRec :: (limitePart s 0 ++ [dailyRec, automateRec]))) [keyTT noDataRec] from by
      rw [dedupKey, if_neg (by simp)]]
    rfl
  have hfhealthy : (emitRecs [] s).filter (fun r => r.type == "healthy_balance") =
      [healthyRec] := by
    rw [emit_empty' s]
    have hlim : (limitePart s 0).filter (fun r => r.type == "healthy_balance") = [] :=
      List.filter_eq_nil_iff.mpr (by
        intro r hr
        rcases limitePart_shape s 0 r hr with ⟨lv, rfl | rfl⟩ <;> simp [overRec, withinRec])
    simp [List.filter_cons, List.filter_append, hlim, noDataRec, healthyRec, dailyRec,
      automateRec]
  have hfdaily : (emitRecs [] s).filter (fun r => r.type == "daily_tracking") =
      [dailyRec] := by
    rw [emit_empty' s]
    have hlim : (limitePart s 0).filter (fun r => r.type == "daily_tracking") = [] :=
      List.filter_eq_nil_iff.mpr (by
        intro r hr
        rcases limitePart_shape s 0 r hr with ⟨lv, rfl | rfl⟩ <;> simp [overRec, withinRec])
    simp [List.filter_cons, List.filter_append, hlim, noDataRec, healthyRec, dailyRec,
      automateRec]
  refine ⟨hhead, rfl, ?_, ?_⟩
  · exact (mem_generate_of_filter [] s _ (fun a b h => by rw [keyTT_type_eq h])
      healthyRec hfhealthy).1
  · exact (mem_generate_of_filter [] s _ (fun a b h => by rw [keyTT_type_eq h])
      dailyRec hfdaily).1

/-- Claim C1: the returned list is sorted by non-increasing score, has no
two entries sharing a `(type, title)` pair, preserves the emission order
among equal scores (stability), and keeps exactly the first occurrence of
each `(type, title)` after sorting. -/
theorem C1_ranker (txs : List Tx) (s : Settings) :
    (generate_recommendations txs s).Pairwise (fun a b => recKey b ≤ recKey a) ∧
      (generate_recommendations txs s).Pairwise (fun a b => keyTT a ≠ keyTT b) ∧
      (∀ a b : Rec, recKey a = recKey b →
        [a, b].Sublist (generate_recommendations txs s) →
        [a, b].Sublist (emitRecs txs s)) ∧
      (∀ r : Rec, r ∈ generate_recommendations txs s ↔
        ∃ p q, sortD recKey (emitRecs txs s) = p ++ r :: q ∧
          ∀ x ∈ p, keyTT x ≠ keyTT r) := by
  have hgen : generate_recommendations txs s =
      dedupKey keyTT (sortD recKey (emitRecs txs s)) [] := dedupTT_eq_dedupKey _ _
  have hsub : (generate_recommendations txs s).Sublist (sortD recKey (emitRecs txs s)) := by
    rw [hgen]
    exact dedupKey_sublist keyTT _ []
  refine ⟨?_, ?_, ?_, ?_⟩
  · exact (sortedD_sortD recKey (emitRecs txs s)).sublist hsub
  · rw [hgen]
    exact pairwise_ne_dedupKey keyTT _ []
  · intro a b hk h
    exact pair_sublist_sortD recKey hk (h.trans hsub)
  · intro r
    rw [hgen, mem_dedupKey]
    simp

/-- Witness for C1's stability clause: two equal-score category candidates
appear in the output in their emission order. -/
theorem C1_ranker_witness :
    letI txs : List Tx :=
      [⟨none, some "gasto", PyVal.num 100, some "A", none, none, PyVal.none⟩,
       ⟨none, some "gasto", PyVal.num 100, some "B", none, none, PyVal.none⟩]
    letI rA := reduceRec "A" (100 / 200 * 100) 100
    letI rB := reduceRec "B" (100 / 200 * 100) 100
    recKey rA = recKey rB ∧
      [rA, rB].Sublist (generate_recommendations txs ⟨PyVal.none, PyVal.none⟩) ∧
      [rA, rB].Sublist (emitRecs txs ⟨PyVal.none, PyVal.none⟩) :=
  ⟨by decide, by decide,
    (C1_ranker _ ⟨PyVal.none, PyVal.none⟩).2.2.1 _ _ (by decide) (by decide)⟩

/-!
Reusable: emission filters concentrate on the interesting rule block when
the predicate rejects every other constructor.
-/

theorem filter_nil_of (P : Rec → Bool) (l : List Rec) (h : ∀ r ∈ l, P r = false) :
    l.filter P = [] :=
  List.filter_eq_nil_iff.mpr (fun r hr => by simp [h r hr])

theorem filter_balancePart_nil (P : Rec → Bool) (i g b : ℚ)
    (hno : P noIncomeRec = false) (hneg : ∀ x y, P (negBalRec x y) = false)
    (hlow : ∀ p, P (lowMarginRec p) = false) (hhea : P healthyRec = false) :
    (balancePart i g b).filter P = [] :=
  filter_nil_of P _ (fun r hr => by
    rcases balancePart_cases i g b r hr with rfl | rfl | rfl | rfl
    · exact hno
    · exact hneg g i
    · exact hlow _
    · exact hhea)

theorem filter_catPart_nil (P : Rec → Bool) (bc : List (String × ℚ))
    (hred : ∀ c p a, P (reduceRec c p a) = false)
    (hmon : ∀ c p, P (monitorRec c p) = false) :
    (catPart bc).filter P = [] :=
  filter_nil_of P _ (fun r hr => by
    unfold catPart at hr
    split_ifs at hr
    · rcases List.mem_filterMap.mp hr with ⟨p, -, hp⟩
      unfold catEmit at hp
      split_ifs at hp
      · rw [← Option.some_inj.mp hp]
        exact hred _ _ _
      · rw [← Option.some_inj.mp hp]
        exact hmon _ _
    · simp at hr)

theorem filter_subPart_nil (P : Rec → Bool) (mm : List (String × List ℚ))
    (hsub : ∀ m c a, P (subCandOf m c a) = false) :
    (subPart mm).filter P = [] :=
  filter_nil_of P _ (fun r hr => by
    rcases subPart_shape mm r hr with ⟨p, -, -, rfl⟩
    exact hsub _ _ _)

theorem filter_smallPart_nil (P : Rec → Bool) (i : ℚ) (cnt : ℕ) (tot : ℚ)
    (hsm : ∀ c t, P (manySmallRec c t) = false) :
    (smallPart i cnt tot).filter P = [] :=
  filter_nil_of P _ (fun r hr => by
    unfold smallPart at hr
    split_ifs at hr <;> simp at hr
    rw [hr]
    exact hsm _ _)

theorem filter_ratioPart_nil (P : Rec → Bool) (i g : ℚ)
    (hhr : P highRatioRec = false) :
    (ratioPart i g).filter P = [] :=
  filter_nil_of P _ (fun r hr => by
    unfold ratioPart at hr
    split_ifs at hr <;> simp at hr
    rw [hr]
    exact hhr)

theorem filter_limitePart_nil (P : Rec → Bool) (s : Settings) (g : ℚ)
    (hover : ∀ x lv, P (overRec x lv) = false)
    (hwithin : ∀ lv, P (withinRec lv) = false) :
    (limitePart s g).filter P = [] :=
  filter_nil_of P _ (fun r hr => by
    rcases limitePart_shape s g r hr with ⟨lv, rfl | rfl⟩
    · exact hover _ _
    · exact hwithin _)

theorem filter_metaPart_nil (P : Rec → Bool) (s : Settings) (i : ℚ)
    (hsg : ∀ n, P (suggestRec n) = false) :
    (metaPart s i).filter P = [] :=
  filter_nil_of P _ (fun r hr => by
    unfold metaPart at hr
    split_ifs at hr <;> simp at hr
    rw [hr]
    exact hsg _)

theorem emit_filter_eq (txs : List Tx) (s : Settings) (P : Rec → Bool)
    (h1 : P noIncomeRec = false) (h2 : ∀ x y, P (negBalRec x y) = false)
    (h3 : ∀ p, P (lowMarginRec p) = false) (h4 : P healthyRec = false)
    (h5 : ∀ c p a, P (reduceRec c p a) = false)
    (h6 : ∀ c p, P (monitorRec c p) = false)
    (h8 : ∀ c t, P (manySmallRec c t) = false)
    (h9 : P highRatioRec = false) (h10 : ∀ n, P (suggestRec n) = false)
    (h11 : P dailyRec = false) (h12 : P automateRec = false)
    (h13 : P noDataRec = false) :
    (emitRecs txs s).filter P =
      (subPart (aggregate txs).merchant_map).filter P ++
        (limitePart s (aggregate txs).gastos).filter P := by
  unfold emitRecs
  split_ifs with hlen <;>
    simp [List.filter_append, List.filter_cons, h11, h12, h13,
      filter_balancePart_nil P _ _ _ h1 h2 h3 h4,
      filter_catPart_nil P _ h5 h6,
      filter_smallPart_nil P _ _ _ h8,
      filter_ratioPart_nil P _ _ h9,
      filter_metaPart_nil P _ _ h10]

/-- Counterexample to C3 as stated: `limite_gastos = 0` is a set, non-null
number and total expense (100) exceeds it, yet the output contains neither
an over-limit nor a within-limit candidate, because the code gates the
rule on Python truthiness of `limite_gastos`. -/
theorem C3_zero_limit_counterexample :
    letI s0 : Settings := ⟨PyVal.none, PyVal.num 0⟩
    letI txs0 : List Tx :=
      [⟨none, some "gasto", PyVal.num 100, none, none, none, PyVal.none⟩]
    s0.limite_gastos = PyVal.num 0 ∧ 0 < (aggregate txs0).gastos ∧
      (generate_recommendations txs0 s0).countP (fun r => r.type == "over_limit") = 0 ∧
      (generate_recommendations txs0 s0).countP (fun r => r.type == "within_limit") = 0 :=
  ⟨rfl, by decide, by decide, by decide⟩

theorem limitePart_num (s : Settings) (g lv : ℚ)
    (hset : s.limite_gastos = PyVal.num lv) (hnz : lv ≠ 0) :
    limitePart s g = if lv < g then [overRec g lv] else [withinRec lv] := by
  unfold limitePart
  rw [hset]
  have ht : truthy (PyVal.num lv) = true := by simp [truthy, hnz]
  rw [if_pos ht]
  rfl

/-- Claim C3 (amended): when `limite_gastos` is set to a nonzero number
`lv`, the output contains the over-limit candidate (score 0.92) if the
total expense exceeds `lv`, and otherwise the within-limit candidate,
whose score (0.25) lies in the stated 0.25–0.3 band.  (The amendment
excludes `lv = 0`, which the truthiness gate skips; see the
counterexample.) -/
theorem C3_limit_rule (txs : List Tx) (s : Settings) (lv : ℚ)
    (hset : s.limite_gastos = PyVal.num lv) (hnz : lv ≠ 0) :
    (lv < (aggregate txs).gastos →
      overRec (aggregate txs).gastos lv ∈ generate_recommendations txs s ∧
        (overRec (aggregate txs).gastos lv).score = some 0.92) ∧
      ((aggregate txs).gastos ≤ lv →
        withinRec lv ∈ generate_recommendations txs s ∧
          ∃ q, (withinRec lv).score = some q ∧ (0.25 : ℚ) ≤ q ∧ q ≤ (0.3 : ℚ)) := by
  have hlim := limitePart_num s (aggregate txs).gastos lv hset hnz
  constructor
  · intro hgt
    have hfil : (emitRecs txs s).filter (fun r => r.type == "over_limit") =
        [overRec (aggregate txs).gastos lv] := by
      rw [emit_filter_eq txs s _ rfl (fun x y => rfl) (fun p => rfl) rfl
        (fun c p a => rfl) (fun c p => rfl) (fun c t => rfl) rfl (fun n => rfl) rfl rfl rfl]
      rw [filter_subPart_nil _ _ (fun m c a => rfl)]
      rw [hlim, if_pos hgt]
      rfl
    exact ⟨(mem_generate_of_filter txs s _
      (fun a b h => by rw [keyTT_type_eq h]) _ hfil).1, rfl⟩
  · intro hle
    have hfil : (emitRecs txs s).filter (fun r => r.type == "within_limit") =
        [withinRec lv] := by
      rw [emit_filter_eq txs s _ rfl (fun x y => rfl) (fun p => rfl) rfl
        (fun c p a => rfl) (fun c p => rfl) (fun c t => rfl) rfl (fun n => rfl) rfl rfl rfl]
      rw [filter_subPart_nil _ _ (fun m c a => rfl)]
      rw [hlim, if_neg (not_lt.mpr hle)]
      rfl
    exact ⟨(mem_generate_of_filter txs s _
      (fun a b h => by rw [keyTT_type_eq h]) _ hfil).1,
      0.25, rfl, le_refl _, by norm_num⟩

/-- Witness for C3 (amended) at a concrete over-limit input. -/
theorem C3_limit_rule_witness :
    letI s0 : Settings := ⟨PyVal.none, PyVal.num 50⟩
    letI txs0 : List Tx :=
      [⟨none, some "gasto", PyVal.num 100, none, none, none, PyVal.none⟩]
    (50 : ℚ) < (aggregate txs0).gastos ∧
      overRec (aggregate txs0).gastos 50 ∈ generate_recommendations txs0 s0 :=
  ⟨by decide,
    ((C3_limit_rule _ ⟨PyVal.none, PyVal.num 50⟩ 50 rfl (by norm_num)).1 (by decide)).1⟩

/-- The missed/achieved saving-goal pair of candidate types. -/
def metaPairP (r : Rec) : Bool :=
  r.type == "miss_saving_goal" || r.type == "achieved_saving_goal"

/-- Counterexample to C4 as stated: in the canonical generator, with
`meta_ahorro` set (to 5) and balance 0 below the goal, the output contains
neither candidate of the missed/achieved pair — the canonical rule set has
no such rule (only the superseded temp-branch iteration does). -/
theorem C4_canonical_counterexample :
    letI s0 : Settings := ⟨PyVal.num 5, PyVal.none⟩
    s0.meta_ahorro = PyVal.num 5 ∧ truthy s0.meta_ahorro = true ∧
      (0 : ℚ) < 5 ∧
      (generate_recommendations [] s0).countP metaPairP = 0 ∧
      0 < (generate_recommendations [] s0).length :=
  ⟨rfl, rfl, by norm_num, by decide, by decide⟩

theorem generateTB_countP (txs : List TxTB) (s : SettingsTB) (P : Rec → Bool) :
    (generateTB txs s).countP P = (emitRecsTB txs s).countP P := by
  unfold generateTB
  rw [show projectRec = id from funext projectRec_eq, List.map_id]
  exact (sortD_perm recKey (emitRecsTB txs s)).countP_eq P

theorem mem_generateTB (txs : List TxTB) (s : SettingsTB) (r : Rec) :
    r ∈ generateTB txs s ↔ r ∈ emitRecsTB txs s := by
  unfold generateTB
  rw [show projectRec = id from funext projectRec_eq, List.map_id]
  exact mem_sortD recKey (emitRecsTB txs s) r

theorem balanceTBpart_countP_pair (i b : ℚ) :
    (balanceTBpart i b).countP metaPairP = 0 := by
  unfold balanceTBpart
  split_ifs <;> rfl

theorem highTBpart_countP_pair (i g : ℚ) :
    (highTBpart i g).countP metaPairP = 0 := by
  unfold highTBpart
  split_ifs <;> rfl

theorem limiteTBpart_countP_pair (s : SettingsTB) (g : ℚ) :
    (limiteTBpart s g).countP metaPairP = 0 := by
  unfold limiteTBpart
  cases s.limite_gastos with
  | none => rfl
  | some lv =>
    simp only [limiteTBof]
    split_ifs <;> rfl

theorem subsTBpart_countP_pair (txs : List TxTB) :
    (subsTBpart txs).countP metaPairP = 0 :=
  countP_zero_of_types (fun r hr => by
    unfold subsTBpart at hr
    rcases List.mem_filterMap.mp hr with ⟨p, -, hp⟩
    split_ifs at hp
    rw [← Option.some_inj.mp hp]
    rfl)

theorem metaTBpart_eq (s : SettingsTB) (mv : ℚ) (hset : s.meta_ahorro = some mv)
    (hnz : mv ≠ 0) (b : ℚ) :
    metaTBpart s b = if b < mv then [missRecTB mv] else [achievedRecTB mv] := by
  unfold metaTBpart
  rw [hset]
  simp only [metaTBof]
  rw [if_pos hnz]

/-- Claim C4 (amended): the missed/achieved saving-goal pair exists only
in the superseded temp-branch iteration of `generate_recommendations`, and
there, when `meta_ahorro` is set to a truthy (nonzero) number, exactly one
of the pair appears — missed (score 0.85) when balance < goal, achieved
(score 0.4) otherwise.  The canonical iteration emits neither (see the
counterexample). -/
theorem C4_meta_goal_pair_tb (txs : List TxTB) (s : SettingsTB) (mv : ℚ)
    (hset : s.meta_ahorro = some mv) (hnz : mv ≠ 0) :
    (generateTB txs s).countP metaPairP = 1 ∧
      (ingresosTB txs - gastosTB txs < mv →
        missRecTB mv ∈ generateTB txs s ∧ (missRecTB mv).score = some 0.85) ∧
      (mv ≤ ingresosTB txs - gastosTB txs →
        achievedRecTB mv ∈ generateTB txs s ∧ (achievedRecTB mv).score = some 0.4) := by
  have hmeta := metaTBpart_eq s mv hset hnz (ingresosTB txs - gastosTB txs)
  refine ⟨?_, ?_, ?_⟩
  · rw [generateTB_countP]
    unfold emitRecsTB
    rw [hmeta]
    simp only [List.countP_append, balanceTBpart_countP_pair, highTBpart_countP_pair,
      limiteTBpart_countP_pair, subsTBpart_countP_pair]
    split_ifs <;> rfl
  · intro hlt
    refine ⟨?_, rfl⟩
    rw [mem_generateTB]
    unfold emitRecsTB
    rw [hmeta, if_pos hlt]
    simp
  · intro hge
    refine ⟨?_, rfl⟩
    rw [mem_generateTB]
    unfold emitRecsTB
    rw [hmeta, if_neg (not_lt.mpr hge)]
    simp

/-- Witness for C4 (amended): a concrete missed-goal instance in the
temp-branch generator. -/
theorem C4_meta_goal_pair_tb_witness :
    letI s0 : SettingsTB := ⟨some 500, none⟩
    letI txs0 : List TxTB := [⟨some "ingreso", 100, none, none⟩]
    (generateTB txs0 s0).countP metaPairP = 1 ∧
      missRecTB 500 ∈ generateTB txs0 s0 := by
  refine ⟨(C4_meta_goal_pair_tb [⟨some "ingreso", 100, none, none⟩] ⟨some 500, none⟩ 500
    rfl (by norm_num)).1, ?_⟩
  exact ((C4_meta_goal_pair_tb [⟨some "ingreso", 100, none, none⟩] ⟨some 500, none⟩ 500
    rfl (by norm_num)).2.1 (by decide)).1

/-- Counterexample to C8 as stated: with no metadata amount and zero
recomputed income, the persisted goal's `target_amount` is the 50000
default, not `round(10% of income) = 0`. -/
theorem C8_zero_income_counterexample :
    letI st0 : ApplyState := ⟨[], true, true, [], [], []⟩
    letI req0 : ApplyReq := ⟨some "suggest_goal", none, some ⟨PyVal.none, none⟩, true⟩
    incomeOfTxs st0.txs = 0 ∧
      (apply_recommendation st0 "u" req0 0).2.goalsDocs.map (fun g => g.target_amount) =
        [50000] ∧
      ((rhe (incomeOfTxs st0.txs * 0.10) : ℤ) : ℚ) ≠ 50000 :=
  ⟨rfl, by decide, by decide⟩

/-- Claim C8 (amended): for a confirmed goal-creation request with no
metadata amount, when the income recomputed from fresh transaction data is
positive and the goals store is available, the persisted goal's
`target_amount` is `round(10% of that income)` (and only the goals store
changes); when the recomputed income is zero the code instead defaults to
50000 (see the counterexample).  In particular income 200000 gives target
20000 (witness). -/
theorem C8_goal_amount (st : ApplyState) (uid : String) (req : ApplyReq) (now : ℤ)
    (md : Meta) (hconf : req.confirm = true) (hmd : req.metadata = some md)
    (hamt : md.amount = PyVal.none) (t : String)
    (hrt : resolvedRecType req = some t) (ht : t ∈ goalTypes)
    (hinc : 0 < incomeOfTxs st.txs) (hgoals : st.goalsAvail = true) :
    (apply_recommendation st uid req now).1.success = true ∧
      (apply_recommendation st uid req now).2.goalsDocs =
        st.goalsDocs ++
          [⟨uid, if truthyS md.name then md.name.getD "" else "Ahorro sugerido",
            ((rhe (incomeOfTxs st.txs * 0.10) : ℤ) : ℚ), 0, now, "savings",
            "recommendation"⟩] ∧
      (apply_recommendation st uid req now).2.settingsGoals = st.settingsGoals ∧
      (apply_recommendation st uid req now).2.actionLog = st.actionLog := by
  have hcontains : goalTypes.contains t = true := by
    simp [goalTypes] at ht ⊢
    tauto
  unfold apply_recommendation
  rw [hmd, hrt]
  simp only [hconf, Bool.not_true, Option.getD_some, hamt, hcontains, hgoals,
    if_pos hinc]
  simp

/-- Witness for C8 (amended): income 200000 yields a goal with target
amount 20000. -/
theorem C8_goal_amount_witness :
    letI st0 : ApplyState :=
      ⟨[⟨none, some "ingreso", PyVal.num 200000, none, none, none, PyVal.none⟩],
       true, true, [], [], []⟩
    letI req0 : ApplyReq := ⟨some "suggest_goal", none, some ⟨PyVal.none, none⟩, true⟩
    0 < incomeOfTxs st0.txs ∧
      (apply_recommendation st0 "u" req0 7).2.goalsDocs =
        [⟨"u", "Ahorro sugerido", 20000, 0, 7, "savings", "recommendation"⟩] ∧
      ((rhe (incomeOfTxs st0.txs * 0.10) : ℤ) : ℚ) = 20000 := by
  refine ⟨by decide, ?_, by decide⟩
  have h := C8_goal_amount
    ⟨[⟨none, some "ingreso", PyVal.num 200000, none, none, none, PyVal.none⟩],
     true, true, [], [], []⟩ "u"
    ⟨some "suggest_goal", none, some ⟨PyVal.none, none⟩, true⟩ 7
    ⟨PyVal.none, none⟩ rfl rfl rfl "suggest_goal" rfl (by decide) (by decide) rfl
  rw [h.2.1]
  decide

/-!
Toolkit for C6: what the aggregation loop records under a merchant key.
-/

theorem lookupA_addToMulti (mm : List (String × List ℚ)) (k : String) (a : ℚ)
    (m : String) :
    lookupA (addToMulti mm k a) m =
      if k = m then some ((lookupA mm m).getD [] ++ [a]) else lookupA mm m := by
  induction mm with
  | nil =>
    by_cases h : k = m <;> simp [addToMulti, lookupA, h]
  | cons hd tl ih =>
    by_cases hk : hd.1 = k
    · by_cases hm : k = m
      · simp [addToMulti, lookupA, hk, hm]
      · simp only [addToMulti]
        rw [show hd = (hd.1, hd.2) from rfl, if_pos hk]
        simp [lookupA, hk, hm]
    · simp only [addToMulti]
      rw [show hd = (hd.1, hd.2) from rfl, if_neg hk]
      by_cases hm : hd.1 = m
      · have : ¬ k = m := fun hc => hk (by rw [hc, hm])
        simp [lookupA, hm, this]
      · simp [lookupA, hm, ih]

theorem lookupA_mem {β : Type} (l : List (String × β)) (m : String) (v : β)
    (h : lookupA l m = some v) : (m, v) ∈ l := by
  induction l with
  | nil => simp [lookupA] at h
  | cons hd tl ih =>
    rw [show hd = (hd.1, hd.2) from rfl, lookupA] at h
    split_ifs at h with hk
    · rw [Option.some_inj] at h
      rw [← hk, ← h]
      exact List.mem_cons_self _ _
    · exact List.mem_cons_of_mem _ (ih h)

theorem keys_addToMulti (mm : List (String × List ℚ)) (k : String) (a : ℚ) :
    (addToMulti mm k a).map Prod.fst =
      if k ∈ mm.map Prod.fst then mm.map Prod.fst else mm.map Prod.fst ++ [k] := by
  induction mm with
  | nil => simp [addToMulti]
  | cons hd tl ih =>
    simp only [addToMulti]
    rw [show hd = (hd.1, hd.2) from rfl]
    by_cases hk : hd.1 = k
    · rw [if_pos hk]
      simp only [List.map_cons]
      rw [if_pos (by rw [← hk]; exact List.mem_cons_self _ _)]
    · rw [if_neg hk]
      simp only [List.map_cons]
      rw [ih]
      have hne : ¬ k = hd.1 := fun hc => hk hc.symm
      by_cases hmem : k ∈ tl.map Prod.fst
      · rw [if_pos hmem, if_pos (List.mem_cons_of_mem _ hmem)]
      · rw [if_neg hmem, if_neg (by simp [hne, hmem])]
        simp

theorem nodup_keys_addToMulti (mm : List (String × List ℚ)) (k : String) (a : ℚ)
    (h : (mm.map Prod.fst).Nodup) : ((addToMulti mm k a).map Prod.fst).Nodup := by
  rw [keys_addToMulti]
  split_ifs with hk
  · exact h
  · simp [List.nodup_append, h, hk]

theorem aggStep_merchant_map (a : Agg) (t : Tx) :
    (aggStep a t).merchant_map =
      if ¬ isIncomeB t ∧ isExpenseB t ∧ merchKey t ≠ "" then
        addToMulti a.merchant_map (merchKey t) (parseAmount t)
      else a.merchant_map := by
  unfold aggStep
  rcases hin : isIncomeB t with - | -
  · rcases hex : isExpenseB t with - | -
    · simp [hin, hex]
    · rcases hk : decide (merchKey t ≠ "") with - | -
      · simp only [hin, hex]
        simp at hk
        simp [hk]
      · simp only [hin, hex]
        simp at hk
        simp [hk]
  · simp [hin]

theorem nodup_keys_merchant_loop (txs : List Tx) :
    ∀ acc : Agg, ((acc.merchant_map).map Prod.fst).Nodup →
      (((txs.foldl aggStep acc).merchant_map).map Prod.fst).Nodup := by
  induction txs with
  | nil => intro acc h; exact h
  | cons t rest ih =>
    intro acc h
    rw [List.foldl_cons]
    refine ih (aggStep acc t) ?_
    rw [aggStep_merchant_map]
    split_ifs with hc
    · exact nodup_keys_addToMulti _ _ _ h
    · exact h

theorem merchantAmounts_cons (t : Tx) (rest : List Tx) (m : String) :
    merchantAmounts (t :: rest) m =
      if !isIncomeB t && isExpenseB t && (merchKey t == m) then
        parseAmount t :: merchantAmounts rest m
      else merchantAmounts rest m := by
  unfold merchantAmounts
  rcases hc : (!isIncomeB t && isExpenseB t && (merchKey t == m)) with - | -
  · rw [List.filter_cons_of_neg (by simp [hc])]
    simp [hc]
  · rw [List.filter_cons_of_pos (by simp [hc])]
    simp [hc]

theorem merchant_loop (m : String) (hm : m ≠ "") (txs : List Tx) :
    ∀ acc : Agg,
      lookupA ((txs.foldl aggStep acc).merchant_map) m =
        match lookupA acc.merchant_map m with
        | some v => some (v ++ merchantAmounts txs m)
        | Option.none =>
          if merchantAmounts txs m = [] then none else some (merchantAmounts txs m) := by
  induction txs with
  | nil =>
    intro acc
    have hma : merchantAmounts [] m = [] := rfl
    rw [List.foldl_nil, hma]
    cases lookupA acc.merchant_map m <;> simp
  | cons t rest ih =>
    intro acc
    rw [List.foldl_cons, ih (aggStep acc t), merchantAmounts_cons,
      aggStep_merchant_map]
    by_cases hin : isIncomeB t = true
    · rw [if_neg (by rintro ⟨h, -, -⟩; exact h hin)]
      rw [show (!isIncomeB t && isExpenseB t && (merchKey t == m)) = false from by
        simp [hin]]
      simp
    · have hin' : isIncomeB t = false := Bool.eq_false_iff.mpr hin
      by_cases hex : isExpenseB t = true
      · by_cases hkm : merchKey t = m
        · have hke : merchKey t ≠ "" := by rw [hkm]; exact hm
          rw [if_pos ⟨hin, hex, hke⟩]
          rw [show (!isIncomeB t && isExpenseB t && (merchKey t == m)) = true from by
            simp [hin', hex, hkm]]
          rw [lookupA_addToMulti, if_pos hkm]
          simp only [if_true]
          cases hl : lookupA acc.merchant_map m <;> simp
        · have hbm : (merchKey t == m) = false := by simp [hkm]
          rw [show (!isIncomeB t && isExpenseB t && (merchKey t == m)) = false from by
            simp [hbm]]
          by_cases hke : merchKey t = ""
          · rw [if_neg (by rintro ⟨-, -, h⟩; exact h hke)]
            simp
          · rw [if_pos ⟨hin, hex, hke⟩]
            rw [lookupA_addToMulti, if_neg hkm]
            simp
      · have hex' : isExpenseB t = false := Bool.eq_false_iff.mpr hex
        rw [if_neg (by rintro ⟨-, h, -⟩; exact hex h)]
        rw [show (!isIncomeB t && isExpenseB t && (merchKey t == m)) = false from by
          simp [hex']]
        simp

theorem merchant_map_lookup (txs : List Tx) (m : String) (hm : m ≠ "")
    (hne : merchantAmounts txs m ≠ []) :
    lookupA (aggregate txs).merchant_map m = some (merchantAmounts txs m) := by
  have h := merchant_loop m hm txs aggInit
  have h0 : lookupA aggInit.merchant_map m = none := rfl
  rw [h0] at h
  unfold aggregate
  rw [h, if_neg hne]

theorem merchant_keys_nodup (txs : List Tx) :
    (((aggregate txs).merchant_map).map Prod.fst).Nodup :=
  nodup_keys_merchant_loop txs aggInit (by simp [aggInit])

/-- The subscription-candidate predicate for a fixed merchant key. -/
def isSubP (m : String) (r : Rec) : Bool :=
  r.type == "possible_subscription" &&
    r.title == ("Revisa posible suscripción: " ++ m)

theorem string_append_cancel (p a b : String) (h : p ++ a = p ++ b) : a = b := by
  have hd : p.data ++ a.data = p.data ++ b.data := by
    rw [← String.data_append, ← String.data_append, h]
  have := List.append_cancel_left hd
  cases a
  cases b
  exact congrArg String.mk this

theorem isSubP_subCand (m m' : String) (c : ℕ) (a : ℚ) :
    isSubP m (subCandOf m' c a) = true ↔ m' = m := by
  unfold isSubP subCandOf
  simp only [Bool.and_eq_true, beq_iff_eq]
  constructor
  · rintro ⟨-, h⟩
    exact string_append_cancel _ _ _ h
  · rintro rfl
    exact ⟨trivial, rfl⟩

theorem subPart_filter_nil (mm : List (String × List ℚ)) (m : String)
    (h : ∀ p ∈ mm, p.1 ≠ m) : (subPart mm).filter (isSubP m) = [] :=
  filter_nil_of _ _ (fun r hr => by
    rcases subPart_shape mm r hr with ⟨p, hp, -, rfl⟩
    exact Bool.eq_false_iff.mpr (fun hc => h p hp ((isSubP_subCand m p.1 _ _).mp hc)))

theorem subPart_filter_singleton (mm : List (String × List ℚ)) (m : String)
    (amts : List ℚ) (hnd : (mm.map Prod.fst).Nodup) (hmem : (m, amts) ∈ mm)
    (hlen : 3 ≤ amts.length) :
    (subPart mm).filter (isSubP m) =
      [subCandOf m amts.length (amts.sum / (amts.length : ℚ))] := by
  induction mm with
  | nil => simp at hmem
  | cons hd tl ih =>
    have hnd' : (tl.map Prod.fst).Nodup := (List.nodup_cons.mp (by simpa using hnd)).2
    rcases List.mem_cons.mp hmem with heq | hmem'
    · have hhd : hd = (m, amts) := heq.symm
      subst hhd
      have hnotl : ∀ p ∈ tl, p.1 ≠ m := by
        intro p hp hc
        have hmn : m ∉ tl.map Prod.fst := (List.nodup_cons.mp (by simpa using hnd)).1
        exact hmn (hc ▸ List.mem_map_of_mem Prod.fst hp)
      unfold subPart
      rw [List.filterMap_cons]
      simp only [if_pos hlen]
      rw [List.filter_cons_of_pos (by
        exact (isSubP_subCand m m amts.length (amts.sum / (amts.length : ℚ))).mpr rfl)]
      rw [show (List.filterMap (fun p =>
        if 3 ≤ p.2.length then
          some (subCandOf p.1 p.2.length (p.2.sum / (p.2.length : ℚ)))
        else none) tl) = subPart tl from rfl]
      rw [subPart_filter_nil tl m hnotl]
    · have hne : hd.1 ≠ m := by
        intro hc
        have hmn : hd.1 ∉ tl.map Prod.fst := (List.nodup_cons.mp (by simpa using hnd)).1
        exact hmn (hc ▸ List.mem_map_of_mem Prod.fst hmem')
      unfold subPart
      rw [List.filterMap_cons]
      rcases h3 : decide (3 ≤ hd.2.length) with - | -
      · simp at h3
        rw [if_neg (not_le.mpr h3)]
        exact ih hnd' hmem'
      · simp at h3
        rw [if_pos h3]
        rw [List.filter_cons_of_neg (by
          simp only [Bool.not_eq_true]
          exact Bool.eq_false_iff.mpr (fun hc =>
            hne ((isSubP_subCand m hd.1 _ _).mp hc)))]
        exact ih hnd' hmem'

theorem C6core (txs : List Tx) (s : Settings) (m : String) (hm : m ≠ "")
    (hlen : 3 ≤ (merchantAmounts txs m).length) :
    subCandOf m (merchantAmounts txs m).length
        ((merchantAmounts txs m).sum / (((merchantAmounts txs m).length : ℕ) : ℚ)) ∈
      generate_recommendations txs s ∧
      (generate_recommendations txs s).countP (isSubP m) = 1 := by
  have hne : merchantAmounts txs m ≠ [] := by
    intro hc
    rw [hc] at hlen
    simp at hlen
  have hlook := merchant_map_lookup txs m hm hne
  have hmem := lookupA_mem _ _ _ hlook
  have hnd := merchant_keys_nodup txs
  have hfil : (emitRecs txs s).filter (isSubP m) =
      [subCandOf m (merchantAmounts txs m).length
        ((merchantAmounts txs m).sum / (((merchantAmounts txs m).length : ℕ) : ℚ))] := by
    rw [emit_filter_eq txs s _ rfl (fun x y => rfl) (fun p => rfl) rfl
      (fun c p a => rfl) (fun c p => rfl) (fun c t => rfl) rfl (fun n => rfl) rfl rfl rfl]
    rw [filter_limitePart_nil _ s _ (fun x lv => rfl) (fun lv => rfl)]
    rw [subPart_filter_singleton _ m _ hnd hmem hlen]
    simp
  have hres := mem_generate_of_filter txs s (isSubP m)
    (fun a b h => by unfold isSubP; rw [keyTT_type_eq h, keyTT_title_eq h]) _ hfil
  exact hres

/-- Claim C6: whenever some nonempty normalized merchant key `m` occurs in
at least three expense transactions, the output contains exactly one
possible-subscription candidate for `m`, with score 0.85 and the average
of that merchant's recorded amounts shown in its detail; and the same
candidate (same count, same average) is included for every permutation of
the transaction list. -/
theorem C6_subscription (txs txs' : List Tx) (s : Settings) (m : String)
    (hm : m ≠ "") (hlen : 3 ≤ (merchantAmounts txs m).length)
    (hperm : txs.Perm txs') :
    (generate_recommendations txs s).countP (isSubP m) = 1 ∧
      subCandOf m (merchantAmounts txs m).length
          ((merchantAmounts txs m).sum / (((merchantAmounts txs m).length : ℕ) : ℚ)) ∈
        generate_recommendations txs s ∧
      (subCandOf m (merchantAmounts txs m).length
          ((merchantAmounts txs m).sum / (((merchantAmounts txs m).length : ℕ) : ℚ))).score =
        some 0.85 ∧
      (subCandOf m (merchantAmounts txs m).length
          ((merchantAmounts txs m).sum / (((merchantAmounts txs m).length : ℕ) : ℚ))).detail =
        "Se detectaron " ++ toString (merchantAmounts txs m).length ++
          " cargos frecuentes (~" ++
          fmtF 0 ((merchantAmounts txs m).sum / (((merchantAmounts txs m).length : ℕ) : ℚ)) ++
          ") en " ++ m ++ "." ∧
      (generate_recommendations txs' s).countP (isSubP m) = 1 ∧
      subCandOf m (merchantAmounts txs m).length
          ((merchantAmounts txs m).sum / (((merchantAmounts txs m).length : ℕ) : ℚ)) ∈
        generate_recommendations txs' s := by
  have hpa : (merchantAmounts txs m).Perm (merchantAmounts txs' m) :=
    (hperm.filter _).map _
  have hlen' : (merchantAmounts txs' m).length = (merchantAmounts txs m).length :=
    hpa.length_eq.symm
  have hsum' : (merchantAmounts txs' m).sum = (merchantAmounts txs m).sum :=
    hpa.sum_eq.symm
  have h1 := C6core txs s m hm hlen
  have h2 := C6core txs' s m hm (by rw [hlen']; exact hlen)
  refine ⟨h1.2, h1.1, rfl, rfl, h2.2, ?_⟩
  have := h2.1
  rw [hlen', hsum'] at this
  exact this

/-- Witness for C6: three expense charges at the same normalized merchant
key "spotify", and a permutation of them, both produce the unique
subscription candidate. -/
theorem C6_subscription_witness :
    letI t1 : Tx := ⟨none, some "gasto", PyVal.num 100, none, none, some "Spotify ", PyVal.none⟩
    letI t2 : Tx := ⟨none, some "gasto", PyVal.num 110, none, none, some "spotify", PyVal.none⟩
    letI t3 : Tx := ⟨none, some "gasto", PyVal.num 90, none, none, some "SPOTIFY", PyVal.none⟩
    (3 : ℕ) ≤ (merchantAmounts [t1, t2, t3] "spotify").length ∧
      (generate_recommendations [t1, t2, t3] ⟨PyVal.none, PyVal.none⟩).countP
        (isSubP "spotify") = 1 ∧
      subCandOf "spotify" (merchantAmounts [t1, t2, t3] "spotify").length
          ((merchantAmounts [t1, t2, t3] "spotify").sum /
            (((merchantAmounts [t1, t2, t3] "spotify").length : ℕ) : ℚ)) ∈
        generate_recommendations [t3, t1, t2] ⟨PyVal.none, PyVal.none⟩ := by
  have h := C6_subscription
    [⟨none, some "gasto", PyVal.num 100, none, none, some "Spotify ", PyVal.none⟩,
     ⟨none, some "gasto", PyVal.num 110, none, none, some "spotify", PyVal.none⟩,
     ⟨none, some "gasto", PyVal.num 90, none, none, some "SPOTIFY", PyVal.none⟩]
    [⟨none, some "gasto", PyVal.num 90, none, none, some "SPOTIFY", PyVal.none⟩,
     ⟨none, some "gasto", PyVal.num 100, none, none, some "Spotify ", PyVal.none⟩,
     ⟨none, some "gasto", PyVal.num 110, none, none, some "spotify", PyVal.none⟩]
    ⟨PyVal.none, PyVal.none⟩ "spotify" (by decide) (by decide) (by decide)
  exact ⟨by decide, h.1, h.2.2.2.2.2⟩

end GastoSmart
